import Mathlib

/-!
# bugsnag-cli: pagination, response normalisation and exit-code classification

A shallow embedding of the core of `yoanbernabeu/bugsnag-cli`:

* `cmd/root.go`: `classifyError`, `getAPIToken`, `getPerPage`;
* `internal/client/client.go`: `APIError`, `APIError.Error`, `Client`, `newRequest`,
  `newRequestWithBody`, `do`;
* `internal/client/pagination.go`: `linkNextRe`, `parseLinkHeader`, `fetchPage`,
  `FetchSinglePage`, `CollectAllPages`, `toURLValues`;
* `internal/client/organizations.go` and its siblings: the list wrappers;
* `internal/models/comment.go`: `Comment.TableRow`;
* `internal/output/output.go`: the exit codes and the `Printer`.

A Go string is a sequence of bytes. It is embedded as a Lean `String` read one
character per byte: `len` is the number of characters and slicing is `take` on
the character list. Every text the program searches for, matches or inserts is
ASCII, so on UTF-8 text the substring tests and the pattern of `linkNextRe` give
the same result whether read on bytes or on characters. Go `int` values are
embedded as `Int` (no arithmetic is performed on them). Go maps are embedded as
association lists whose keys are pairwise distinct.
The standard library (`strings`, `fmt`, `regexp`, `encoding/json`, `net/http`,
`net/url`) is not part of the repository: `strings.Contains`, `%d` formatting and
the one regular expression the program uses are given an executable model, the
JSON decoder and the HTTP transport are parameters.
-/

namespace BugsnagCli

/-! ## Strings -/

/-- Substring test on character lists: `sub` occurs in `s` as a contiguous block. -/
def containsL (sub : List Char) : List Char → Bool
  | [] => sub.isEmpty
  | c :: cs => sub.isPrefixOf (c :: cs) || containsL sub cs

/-- Go `strings.Contains(s, substr)`. -/
def stringsContains (s substr : String) : Bool :=
  containsL substr.data s.data

/-- Go `fmt.Sprintf("%d", n)` for an `int`. -/
def fmtD (n : Int) : String :=
  if n < 0 then "-" ++ Nat.repr n.natAbs else Nat.repr n.toNat

/-! ## Exit codes (`internal/output/output.go`) -/

def ExitOK : Int := 0
def ExitGeneral : Int := 1
def ExitConfig : Int := 2
def ExitAPI : Int := 3
def ExitNetwork : Int := 4

/-! ## Maps and errors (`internal/client/client.go`) -/

/-- Go `map[string]string` / `map[string][]string`: an association list. -/
abbrev GoMap (β : Type) := List (String × β)

/-- The map lookup `m[k]` (with the `ok` flag as `Option`). -/
def mapGet {β : Type} (m : GoMap β) (k : String) : Option β :=
  match m with
  | [] => none
  | (k1, v) :: rest => if k1 = k then some v else mapGet rest k

/-- The assignment `m[k] = v`. -/
def mapSet {β : Type} (m : GoMap β) (k : String) (v : β) : GoMap β :=
  match m with
  | [] => [(k, v)]
  | (k1, v1) :: rest => if k1 = k then (k1, v) :: rest else (k1, v1) :: mapSet rest k v

/-- The struct `APIError`. -/
structure APIError where
  StatusCode : Int
  Message : String
  Errors : List (GoMap String)
  deriving DecidableEq, Repr

/-- The method `(*APIError).Error`. -/
def APIError.Error (e : APIError) : String :=
  if e.Message ≠ "" then
    "API error (" ++ fmtD e.StatusCode ++ "): " ++ e.Message
  else
    "API error (" ++ fmtD e.StatusCode ++ ")"

/-- A non-nil Go `error` value, by dynamic type.
`api` is a `*client.APIError`; `errorString` is what `fmt.Errorf` without `%w`
(or `errors.New`) builds; `wrapError pre inner` is what `fmt.Errorf(pre + "%w", inner)`
builds. -/
inductive GoError where
  | api (e : APIError)
  | errorString (msg : String)
  | wrapError (pre : String) (inner : GoError)
  deriving DecidableEq, Repr

/-- The method `Error()` of an error value. -/
def GoError.Error : GoError → String
  | .api e => e.Error
  | .errorString msg => msg
  | .wrapError pre inner => pre ++ inner.Error

/-- The type assertion `err.(*client.APIError)`: it inspects the dynamic type of the
value itself and does not unwrap. -/
def GoError.asAPIError : GoError → Option APIError
  | .api e => some e
  | _ => none

/-! ## `cmd/root.go` -/

/-- The function `classifyError`; `none` is the nil error. -/
def classifyError (err : Option GoError) : Int :=
  match err with
  | none => ExitOK
  | some e =>
    let msg := e.Error
    if stringsContains msg "API token is required" || stringsContains msg "is required" then
      ExitConfig
    else
      match e.asAPIError with
      | some _ => ExitAPI
      | none =>
        if stringsContains msg "network error" then
          ExitNetwork
        else if stringsContains msg "API error" then
          ExitAPI
        else
          ExitGeneral

/-- The function `getAPIToken`; the argument is the value of
`viper.GetString("api_token")`. -/
def getAPIToken (apiToken : String) : String × Option GoError :=
  let token := apiToken
  if token = "" then
    ("", some (.errorString
      "API token is required. Set via --api-token, BUGSNAG_API_TOKEN env var, or config file"))
  else
    (token, none)

/-! ## The classifier as the specification lists it -/

/-- The precedence list of the specification, section 4.5, read top to bottom
(first match wins). -/
def classifySpec (err : Option GoError) : Int :=
  match err with
  | none => 0
  | some e =>
    if stringsContains e.Error "is required" then 2
    else if e.asAPIError.isSome then 3
    else if stringsContains e.Error "network error" then 4
    else if stringsContains e.Error "API error" then 3
    else 1

/-! ## Regular expressions (the fragment of Go `regexp` that `linkNextRe` uses)

Go's `regexp` returns the leftmost match and, among the matches starting there,
the one a backtracking search would find first (greedy operators prefer the
longest repetition). The matcher below is that backtracking search. -/

/-- A set of characters: a literal, a negated one-character class `[^c]`,
or the Perl class `\s`, which Go defines as `[\t\n\f\r ]`. -/
inductive CharClass where
  | chr (c : Char)
  | notChr (c : Char)
  | space
  deriving DecidableEq, Repr

/-- Whether a character belongs to a class. -/
def CharClass.test : CharClass → Char → Bool
  | .chr c, x => x == c
  | .notChr c, x => x != c
  | .space, x => x == ' ' || x == '\t' || x == '\n' || x == Char.ofNat 12 || x == '\r'

/-- One item of a regular expression that is a sequence: a single character of a
class, a greedy `k*`, or the capturing group `(k+)` (group 1, greedy). -/
inductive ReItem where
  | one (k : CharClass)
  | star (k : CharClass)
  | capPlus (k : CharClass)
  deriving DecidableEq, Repr

/-- Greedy repetition with backtracking: consume characters satisfying `p` while
possible, trying the longest run first and giving characters back one at a time
until the continuation `k` succeeds. `acc` is the text consumed so far. -/
def rep {β : Type} (p : Char → Bool) (k : List Char → List Char → Option β) :
    List Char → List Char → Option β
  | acc, [] => k acc []
  | acc, c :: cs =>
    if p c then
      match rep p k (acc ++ [c]) cs with
      | some r => some r
      | none => k acc (c :: cs)
    else k acc (c :: cs)

/-- Match a sequence of items at the start of the input. On success the result is
the text of group 1 and the input left after the match. -/
def matchHere : List ReItem → List Char → List Char → Option (List Char × List Char)
  | [], cap, s => some (cap, s)
  | .one k :: rest, cap, s =>
    match s with
    | c :: cs => if k.test c then matchHere rest cap cs else none
    | [] => none
  | .star k :: rest, cap, s =>
    rep k.test (fun _ s1 => matchHere rest cap s1) [] s
  | .capPlus k :: rest, _, s =>
    match s with
    | c :: cs =>
      if k.test c then rep k.test (fun acc s1 => matchHere rest acc s1) [c] cs else none
    | [] => none

/-- Go `(*Regexp).FindStringSubmatch` for a pattern with one group: the empty
slice when nothing matches, else the text of the leftmost match followed by the
text of group 1. -/
def FindStringSubmatch (re : List ReItem) : List Char → List (List Char)
  | [] =>
    match matchHere re [] [] with
    | some (g, _) => [[], g]
    | none => []
  | c :: cs =>
    match matchHere re [] (c :: cs) with
    | some (g, rest) => [(c :: cs).take ((c :: cs).length - rest.length), g]
    | none => FindStringSubmatch re cs

/-- The items matching the characters of a literal text one by one. -/
def lits (s : String) : List ReItem :=
  s.data.map fun c => .one (.chr c)

/-! ## `internal/client/pagination.go` -/

/-- The pattern `<([^>]+)>;\s*rel="next"`. -/
def linkNextRe : List ReItem :=
  [.one (.chr '<'), .capPlus (.notChr '>'), .one (.chr '>'), .one (.chr ';'), .star .space]
    ++ lits "rel=\"next\""

/-- The function `parseLinkHeader`. -/
def parseLinkHeader (header : String) : String :=
  let matched := FindStringSubmatch linkNextRe header.data
  if matched.length ≥ 2 then
    String.mk (matched.getD 1 [])
  else
    ""

/-- The function `toURLValues`; `none` is the nil map. The loop visits the
entries of `params` and sets `values[k] = []string{v}` for each non-empty `v`. -/
def toURLValues (params : Option (GoMap String)) : Option (GoMap (List String)) :=
  match params with
  | none => none
  | some p =>
    some (p.foldl (fun values kv => if kv.2 ≠ "" then mapSet values kv.1 [kv.2] else values) [])

/-! ## Requests, responses and the transport

`net/http`, `net/url` and `encoding/json` are outside the repository. A request
records what the program hands to `http.NewRequest` and sets on the header; the
transport and the decoders are parameters. -/

/-- The URL of a request: either `url.Parse(raw)` with `RawQuery` replaced by
`query.Encode()` (what `newRequest` builds), or a URL string passed as is, or
`url.Parse(raw)` printed back (what `newRequestWithBody` builds). -/
inductive ReqURL where
  | built (raw : String) (query : GoMap (List String))
  | plain (url : String)
  | parsed (raw : String)
  deriving DecidableEq, Repr

/-- Go `http.Header.Get`: the first value stored under the key, or `""`. -/
def headerGet (h : GoMap (List String)) (k : String) : String :=
  match mapGet h k with
  | some (v :: _) => v
  | _ => ""

/-- Go `http.Header.Set`: the key now holds the single value `v`. -/
def headerSet (h : GoMap (List String)) (k v : String) : GoMap (List String) :=
  mapSet h k [v]

/-- An `*http.Request` as far as the program determines it; `Body` is the content
of the `io.Reader` handed to `http.NewRequest` (`none` for a nil body). -/
structure Request where
  Method : String
  URL : ReqURL
  Header : GoMap (List String)
  Body : Option String := none
  deriving DecidableEq, Repr

/-- An `*http.Response` as far as the program reads it. `Body` is what
`io.ReadAll(resp.Body)` returns and `ReadErr` the error returned with it. -/
structure Response where
  StatusCode : Int
  Header : GoMap (List String)
  Body : String
  ReadErr : Option GoError
  deriving DecidableEq, Repr

/-- The struct `Client`; the field `HTTPClient` is the transport of `Env`. -/
structure Client where
  BaseURL : String
  Token : String
  PerPage : Int
  deriving DecidableEq, Repr

/-- What the program calls outside the repository, for item type `T` and a
server/network state `σ`:
`Do` is `c.HTTPClient.Do`, `urlParse` the error of `url.Parse` (`none` on success),
`httpNewRequest` the error of `http.NewRequest`, `unmarshalErrors` is
`json.Unmarshal` into the struct with the one field `Errors` (`none` when it
returns an error), `unmarshalItems` is `json.Unmarshal` into a `[]T`. -/
structure Env (T σ : Type) where
  Do : σ → Request → Except GoError Response × σ
  urlParse : String → Option GoError
  httpNewRequest : String → ReqURL → Option GoError
  unmarshalErrors : String → Option (List (GoMap String))
  unmarshalItems : String → Except GoError (List T)

/-- The method `(*Client).newRequest`; `params = none` is the nil `url.Values`. -/
def Client.newRequest {T σ : Type} (env : Env T σ) (c : Client) (method path : String)
    (params : Option (GoMap (List String))) : Except GoError Request :=
  match env.urlParse (c.BaseURL ++ path) with
  | some err => .error (.wrapError "invalid URL: " err)
  | none =>
    let params := match params with
      | none => []
      | some p => p
    let params :=
      if (mapGet params "per_page").isNone && decide (c.PerPage > 0) then
        mapSet params "per_page" [fmtD c.PerPage]
      else params
    match env.httpNewRequest method (.built (c.BaseURL ++ path) params) with
    | some err => .error err
    | none =>
      let header := headerSet [] "Authorization" ("token " ++ c.Token)
      let header := headerSet header "Content-Type" "application/json"
      let header := headerSet header "Accept" "application/json"
      .ok { Method := method, URL := .built (c.BaseURL ++ path) params, Header := header }

/-- The struct `PageResult[T]`. -/
structure PageResult (T : Type) where
  Items : List T
  NextURL : String
  HasMore : Bool

/-- The function `fetchPage`: the result and the state the transport is left in. -/
def fetchPage {T σ : Type} (env : Env T σ) (_c : Client) (s : σ) (req : Request) :
    Except GoError (PageResult T) × σ :=
  match env.Do s req with
  | (.error err, s1) => (.error (.wrapError "network error: " err), s1)
  | (.ok resp, s1) =>
    if resp.StatusCode ≥ 400 then
      let body := resp.Body
      let apiErr : APIError := { StatusCode := resp.StatusCode, Message := "", Errors := [] }
      match env.unmarshalErrors body with
      | some (first :: more) =>
        let apiErr :=
          match mapGet first "message" with
          | some msg => { apiErr with Message := msg }
          | none => apiErr
        (.error (.api { apiErr with Errors := first :: more }), s1)
      | _ => (.error (.api { apiErr with Message := body }), s1)
    else
      match resp.ReadErr with
      | some err => (.error (.wrapError "reading response: " err), s1)
      | none =>
        match env.unmarshalItems resp.Body with
        | .error err => (.error (.wrapError "decoding response: " err), s1)
        | .ok items =>
          let nextURL := parseLinkHeader (headerGet resp.Header "Link")
          (.ok { Items := items, NextURL := nextURL, HasMore := nextURL != "" }, s1)

/-- The function `FetchSinglePage`: the triple it returns (a nil slice is `[]`, a
nil error is `none`) and the state the transport is left in. -/
def FetchSinglePage {T σ : Type} (env : Env T σ) (c : Client) (s : σ) (path : String)
    (params : Option (GoMap String)) : (List T × Bool × Option GoError) × σ :=
  match c.newRequest env "GET" path (toURLValues params) with
  | .error err => (([], false, some err), s)
  | .ok req =>
    match fetchPage env c s req with
    | (.error err, s1) => (([], false, some err), s1)
    | (.ok result, s1) => ((result.Items, result.HasMore, none), s1)

/-- The method `(*Client).newRequestWithBody`. -/
def Client.newRequestWithBody {T σ : Type} (env : Env T σ) (c : Client) (method path : String)
    (body : Option String) : Except GoError Request :=
  match env.urlParse (c.BaseURL ++ path) with
  | some err => .error (.wrapError "invalid URL: " err)
  | none =>
    match env.httpNewRequest method (.parsed (c.BaseURL ++ path)) with
    | some err => .error err
    | none =>
      let header := headerSet [] "Authorization" ("token " ++ c.Token)
      let header := headerSet header "Content-Type" "application/json"
      let header := headerSet header "Accept" "application/json"
      .ok { Method := method, URL := .parsed (c.BaseURL ++ path), Header := header,
            Body := body }

/-- The method `(*Client).do` (`do` is a reserved word). The decode target `v` is
`none` for a nil target, else `json.Unmarshal` into the target's type. The result
is the response returned, the value decoded into the target, the error, and the
state the transport is left in. -/
def Client.do_ {T σ α : Type} (env : Env T σ) (_c : Client) (s : σ) (req : Request)
    (v : Option (String → Except GoError α)) :
    (Option Response × Option α × Option GoError) × σ :=
  match env.Do s req with
  | (.error err, s1) => ((none, none, some (.wrapError "network error: " err)), s1)
  | (.ok resp, s1) =>
    if resp.StatusCode ≥ 400 then
      let body := resp.Body
      let apiErr : APIError := { StatusCode := resp.StatusCode, Message := "", Errors := [] }
      match env.unmarshalErrors body with
      | some (first :: more) =>
        let apiErr :=
          match mapGet first "message" with
          | some msg => { apiErr with Message := msg }
          | none => apiErr
        ((some resp, none, some (.api { apiErr with Errors := first :: more })), s1)
      | _ => ((some resp, none, some (.api { apiErr with Message := body })), s1)
    else
      match v with
      | none => ((some resp, none, none), s1)
      | some unmarshal =>
        match resp.ReadErr with
        | some err => ((some resp, none, some (.wrapError "reading response: " err)), s1)
        | none =>
          match unmarshal resp.Body with
          | .error err => ((some resp, none, some (.wrapError "decoding response: " err)), s1)
          | .ok a => ((some resp, some a, none), s1)

/-- The follow-up request of `CollectAllPages`: `http.NewRequest("GET", nextURL, nil)`
with the headers `Authorization` and `Accept` set. -/
def nextPageRequest (c : Client) (nextURL : String) : Request :=
  let header := headerSet [] "Authorization" ("token " ++ c.Token)
  let header := headerSet header "Accept" "application/json"
  { Method := "GET", URL := .plain nextURL, Header := header }

/-- The loop of `CollectAllPages`, with `req` and `all` its variables. The loop has
no bound in the source; `fuel` bounds the number of iterations here, and the
result is `none` when the fuel runs out before the loop ends. -/
def collectLoop {T σ : Type} (env : Env T σ) (c : Client) :
    Nat → σ → Request → List T → Option (List T × Option GoError) × σ
  | 0, s, _, _ => (none, s)
  | fuel + 1, s, req, all =>
    match fetchPage env c s req with
    | (.error err, s1) => (some ([], some err), s1)
    | (.ok result, s1) =>
      let all := all ++ result.Items
      if !result.HasMore then
        (some (all, none), s1)
      else
        match env.httpNewRequest "GET" (.plain result.NextURL) with
        | some err => (some ([], some (.wrapError "building next page request: " err)), s1)
        | none => collectLoop env c fuel s1 (nextPageRequest c result.NextURL) all

/-- The function `CollectAllPages`: the pair it returns (a nil slice is `[]`, a nil
error is `none`), or `none` when `fuel` iterations do not end the loop, and the
state the transport is left in. -/
def CollectAllPages {T σ : Type} (env : Env T σ) (c : Client) (fuel : Nat) (s : σ)
    (path : String) (params : Option (GoMap String)) :
    Option (List T × Option GoError) × σ :=
  match c.newRequest env "GET" path (toURLValues params) with
  | .error err => (some ([], some err), s)
  | .ok req => collectLoop env c fuel s req []

/-! ## Recording the exchanges with the server -/

/-- One exchange: the request handed to the transport and what came back. -/
abbrev Exchange := Request × Except GoError Response

/-- The environment `env` with a transport that also appends every exchange to a
log kept next to the server state. -/
def recording {T σ : Type} (env : Env T σ) : Env T (σ × List Exchange) where
  Do := fun st req =>
    ((env.Do st.1 req).1, ((env.Do st.1 req).2, st.2 ++ [(req, (env.Do st.1 req).1)]))
  urlParse := env.urlParse
  httpNewRequest := env.httpNewRequest
  unmarshalErrors := env.unmarshalErrors
  unmarshalItems := env.unmarshalItems

/-- The log starts with the request `req`, and every later request in it is the
follow-up request for the next URL of the response just before it. -/
def chainFrom (c : Client) : Request → List Exchange → Prop
  | _, [] => True
  | req, (r, res) :: rest =>
    r = req ∧ (rest = [] ∨ ∃ resp, res = .ok resp ∧
      chainFrom c (nextPageRequest c (parseLinkHeader (headerGet resp.Header "Link"))) rest)

/-- The response carries the page `P`: its status is below 400 and its body is read
in full and decodes to `P`. -/
def carriesPage {T σ : Type} (env : Env T σ) (resp : Response) (P : List T) : Prop :=
  resp.StatusCode < 400 ∧ resp.ReadErr = none ∧ env.unmarshalItems resp.Body = .ok P

/-- The server answers the successive requests of an aggregation, the first being
`req` sent in state `s`, with the pages `pages` in this order, giving a next link
(from which the follow-up request can be built) on every page but the last, and is
left in state `sEnd`. -/
def answersPages {T σ : Type} (env : Env T σ) (c : Client) :
    List (List T) → σ → Request → σ → Prop
  | [], _, _, _ => False
  | P :: rest, s, req, sEnd =>
    ∃ resp s1, env.Do s req = (.ok resp, s1) ∧ carriesPage env resp P ∧
      (rest = [] → parseLinkHeader (headerGet resp.Header "Link") = "" ∧ s1 = sEnd) ∧
      (rest ≠ [] → parseLinkHeader (headerGet resp.Header "Link") ≠ "" ∧
        env.httpNewRequest "GET" (.plain (parseLinkHeader (headerGet resp.Header "Link")))
          = none ∧
        answersPages env c rest s1
          (nextPageRequest c (parseLinkHeader (headerGet resp.Header "Link"))) sEnd)

/-- The fetches of the first `k` pages succeed, each page announcing a next page
for which the follow-up request can be built, and the fetch of page `k + 1` fails
with the error `e`, leaving the server in state `sEnd`; `req` is the first request,
sent in state `s`. -/
def failsAfter {T σ : Type} (env : Env T σ) (c : Client) :
    Nat → σ → Request → GoError → σ → Prop
  | 0, s, req, e, sEnd => fetchPage env c s req = (.error e, sEnd)
  | k + 1, s, req, e, sEnd =>
    ∃ p s1, fetchPage env c s req = (.ok p, s1) ∧ p.HasMore = true ∧
      env.httpNewRequest "GET" (.plain p.NextURL) = none ∧
      failsAfter env c k s1 (nextPageRequest c p.NextURL) e sEnd

/-- A server that answers the successive requests with the responses of a script,
whatever the request, and fails at the transport once the script is used up;
`url.Parse` rejects the URL `://bad/test`, the error body of the test suite parses
as an errors list, and page bodies are decoded by `decode`. -/
def scriptEnv (decode : String → Except GoError (List Nat)) : Env Nat (List Response) where
  Do := fun script _ =>
    match script with
    | resp :: rest => (.ok resp, rest)
    | [] => (.error (.errorString "connection refused"), [])
  urlParse := fun u =>
    if u = "://bad/test" then some (.errorString "missing protocol scheme") else none
  httpNewRequest := fun _ _ => none
  unmarshalErrors := fun b =>
    if b = "\x7b\"errors\":[\x7b\"message\":\"Forbidden\"\x7d]\x7d" then
      some [[("message", "Forbidden")]]
    else none
  unmarshalItems := decode

/-- A decoder for the bodies of the scripted pages. -/
def decodeNats (b : String) : Except GoError (List Nat) :=
  if b = "[1,2]" then .ok [1, 2]
  else if b = "[3]" then .ok [3]
  else if b = "[4,5]" then .ok [4, 5]
  else .error (.errorString "invalid character")

/-- A successful page response with the given body and `Link` header. -/
def pageResp (body link : String) : Response :=
  { StatusCode := 200, Header := if link = "" then [] else [("Link", [link])],
    Body := body, ReadErr := none }

/-! ## A concrete server -/

/-- A server that answers every request with status 200, the body `[1,2]` and a
`Link` header naming a next page; the state counts the requests. -/
def demoEnv : Env Nat Nat where
  Do := fun n _ =>
    (.ok { StatusCode := 200,
           Header := [("Link", ["<https://api.bugsnag.com/next?offset=abc>; rel=\"next\""])],
           Body := "[1,2]", ReadErr := none }, n + 1)
  urlParse := fun _ => none
  httpNewRequest := fun _ _ => none
  unmarshalErrors := fun _ => none
  unmarshalItems := fun b => if b = "[1,2]" then .ok [1, 2] else .error (.errorString "bad")

/-! ## The list wrappers (`internal/client/organizations.go`, `projects.go`,
`errors.go`, `events.go`, `collaborators.go`, `comments.go`, `releases.go`)

Each wrapper returns `([]T, bool, error)`; as `CollectAllPages` takes fuel here, the
triple is `none` when the fuel runs out. -/

/-- The method `(*Client).ListOrganizations`. -/
def Client.ListOrganizations {T σ : Type} (env : Env T σ) (c : Client) (fuel : Nat) (s : σ)
    (allPages : Bool) : Option (List T × Bool × Option GoError) × σ :=
  if allPages then
    match CollectAllPages env c fuel s "/user/organizations" none with
    | (some (items, err), s1) => (some (items, false, err), s1)
    | (none, s1) => (none, s1)
  else
    match FetchSinglePage env c s "/user/organizations" none with
    | (r, s1) => (some r, s1)

/-- The method `(*Client).ListProjects`. -/
def Client.ListProjects {T σ : Type} (env : Env T σ) (c : Client) (fuel : Nat) (s : σ)
    (orgID : String) (allPages : Bool) : Option (List T × Bool × Option GoError) × σ :=
  let path := "/organizations/" ++ orgID ++ "/projects"
  if allPages then
    match CollectAllPages env c fuel s path none with
    | (some (items, err), s1) => (some (items, false, err), s1)
    | (none, s1) => (none, s1)
  else
    match FetchSinglePage env c s path none with
    | (r, s1) => (some r, s1)

/-- The struct `ListErrorsOptions` (`Sort` is a reserved word, the field is
`Sort_`). -/
structure ListErrorsOptions where
  ProjectID : String
  Status : String
  Severity : String
  Sort_ : String
  Direction : String
  AllPages : Bool
  deriving DecidableEq, Repr

/-- The parameter map `ListErrors` builds from its options. -/
def listErrorsParams (opts : ListErrorsOptions) : GoMap String :=
  let params : GoMap String := []
  let params := if opts.Status ≠ "" then mapSet params "status" opts.Status else params
  let params := if opts.Severity ≠ "" then mapSet params "severity" opts.Severity else params
  let params := if opts.Sort_ ≠ "" then mapSet params "sort" opts.Sort_ else params
  let params := if opts.Direction ≠ "" then mapSet params "direction" opts.Direction else params
  params

/-- The method `(*Client).ListErrors`. -/
def Client.ListErrors {T σ : Type} (env : Env T σ) (c : Client) (fuel : Nat) (s : σ)
    (opts : ListErrorsOptions) : Option (List T × Bool × Option GoError) × σ :=
  let path := "/projects/" ++ opts.ProjectID ++ "/errors"
  let params := listErrorsParams opts
  if opts.AllPages then
    match CollectAllPages env c fuel s path (some params) with
    | (some (items, err), s1) => (some (items, false, err), s1)
    | (none, s1) => (none, s1)
  else
    match FetchSinglePage env c s path (some params) with
    | (r, s1) => (some r, s1)

/-- The path `ListEvents` requests. -/
def listEventsPath (projectID errorID : String) : String :=
  if errorID ≠ "" then
    "/projects/" ++ projectID ++ "/errors/" ++ errorID ++ "/events"
  else
    "/projects/" ++ projectID ++ "/events"

/-- The method `(*Client).ListEvents`. -/
def Client.ListEvents {T σ : Type} (env : Env T σ) (c : Client) (fuel : Nat) (s : σ)
    (projectID errorID : String) (allPages : Bool) :
    Option (List T × Bool × Option GoError) × σ :=
  let path := listEventsPath projectID errorID
  if allPages then
    match CollectAllPages env c fuel s path none with
    | (some (items, err), s1) => (some (items, false, err), s1)
    | (none, s1) => (none, s1)
  else
    match FetchSinglePage env c s path none with
    | (r, s1) => (some r, s1)

/-- The method `(*Client).ListCollaborators`. -/
def Client.ListCollaborators {T σ : Type} (env : Env T σ) (c : Client) (fuel : Nat) (s : σ)
    (orgID : String) (allPages : Bool) : Option (List T × Bool × Option GoError) × σ :=
  let path := "/organizations/" ++ orgID ++ "/collaborators"
  if allPages then
    match CollectAllPages env c fuel s path none with
    | (some (items, err), s1) => (some (items, false, err), s1)
    | (none, s1) => (none, s1)
  else
    match FetchSinglePage env c s path none with
    | (r, s1) => (some r, s1)

/-- The method `(*Client).ListComments`. -/
def Client.ListComments {T σ : Type} (env : Env T σ) (c : Client) (fuel : Nat) (s : σ)
    (projectID errorID : String) (allPages : Bool) :
    Option (List T × Bool × Option GoError) × σ :=
  let path := "/projects/" ++ projectID ++ "/errors/" ++ errorID ++ "/comments"
  if allPages then
    match CollectAllPages env c fuel s path none with
    | (some (items, err), s1) => (some (items, false, err), s1)
    | (none, s1) => (none, s1)
  else
    match FetchSinglePage env c s path none with
    | (r, s1) => (some r, s1)

/-- The method `(*Client).ListReleases`. -/
def Client.ListReleases {T σ : Type} (env : Env T σ) (c : Client) (fuel : Nat) (s : σ)
    (projectID : String) (allPages : Bool) : Option (List T × Bool × Option GoError) × σ :=
  let path := "/projects/" ++ projectID ++ "/releases"
  if allPages then
    match CollectAllPages env c fuel s path none with
    | (some (items, err), s1) => (some (items, false, err), s1)
    | (none, s1) => (none, s1)
  else
    match FetchSinglePage env c s path none with
    | (r, s1) => (some r, s1)

/-- What the claim says of a list wrapper `W` (a function of the all-pages flag)
with path `path` and parameters `params`: in all-pages mode the has-more flag is
false and the items and the error are those of `CollectAllPages`; in single-page
mode the triple is that of `FetchSinglePage`. -/
def wrapsPagination {T σ : Type} (env : Env T σ) (c : Client) (fuel : Nat) (s : σ)
    (W : Bool → Option (List T × Bool × Option GoError) × σ) (path : String)
    (params : Option (GoMap String)) : Prop :=
  (W true).1 = (CollectAllPages env c fuel s path params).1.map (fun r => (r.1, false, r.2)) ∧
  (W true).2 = (CollectAllPages env c fuel s path params).2 ∧
  (∀ r, (W true).1 = some r → r.2.1 = false) ∧
  W false = (some (FetchSinglePage env c s path params).1,
    (FetchSinglePage env c s path params).2)

/-! ## `cmd/root.go`: page size -/

/-- The function `getPerPage`; the argument is the value of
`viper.GetInt("per_page")`. -/
def getPerPage (perPage : Int) : Int :=
  let pp := perPage
  if pp ≤ 0 ∨ pp > 100 then 30 else pp

/-! ## `internal/models/comment.go` -/

/-- The struct `Comment`. -/
structure Comment where
  ID : String
  Message : String
  AuthorID : String
  AuthorName : String
  CreatedAt : String
  deriving DecidableEq, Repr

/-- The method `Comment.TableHeaders`. -/
def Comment.TableHeaders (_c : Comment) : List String :=
  ["ID", "AUTHOR", "MESSAGE", "CREATED_AT"]

/-- The method `Comment.TableRow`: `len(msg)` is the number of bytes, here of
characters, and `msg[:57]` the first 57 of them. -/
def Comment.TableRow (c : Comment) : List String :=
  let msg := c.Message
  let msg := if msg.length > 60 then String.mk (msg.data.take 57) ++ "..." else msg
  [c.ID, c.AuthorName, msg, c.CreatedAt]

/-! ## `internal/output/output.go`: the printer

`encoding/json` and `text/tabwriter` are outside the repository: what a printing
method produces is recorded as which writer is handed what. -/

/-- A value of the interface `TableRenderer`, by the results of its two methods. -/
structure TableRenderer where
  TableHeaders : List String
  TableRow : List String
  deriving DecidableEq, Repr

/-- The argument `data any` of the printing methods, by the cases of the type
switch in `printTable`; `J` is the type of all other values. -/
inductive PrintData (J : Type) where
  | renderers (v : List TableRenderer)
  | renderer (v : TableRenderer)
  | other (v : J)
  deriving DecidableEq, Repr

/-- The struct `ListResult`. -/
structure ListResult (J : Type) where
  Data : PrintData J
  TotalCount : Int
  HasMore : Bool
  deriving DecidableEq, Repr

/-- What is written to `Out`: the JSON encoding of a `ListResult` or of the data
(`PrintJSON`), the line `No results found.`, or rows of cells laid out by the
tabwriter. -/
inductive Written (J : Type) where
  | jsonList (r : ListResult J)
  | jsonData (d : PrintData J)
  | line (text : String)
  | table (rows : List (List String))
  deriving DecidableEq, Repr

/-- The struct `Printer`; the writers `Out` and `ErrOut` are the results of the
methods. -/
structure Printer where
  Format : String
  deriving DecidableEq, Repr

/-- The method `(*Printer).printTable`. -/
def Printer.printTable {J : Type} (_p : Printer) (data : PrintData J) : Written J :=
  match data with
  | .renderers v =>
    match v with
    | [] => .line "No results found."
    | v0 :: _ => .table (v0.TableHeaders :: v.map (fun item => item.TableRow))
  | .renderer v => .table [v.TableHeaders, v.TableRow]
  | .other _ => .jsonData data

/-- The method `(*Printer).PrintList`. -/
def Printer.PrintList {J : Type} (p : Printer) (data : PrintData J) (totalCount : Int)
    (hasMore : Bool) : Written J :=
  let result : ListResult J := { Data := data, TotalCount := totalCount, HasMore := hasMore }
  if p.Format = "table" then
    p.printTable data
  else
    .jsonList result

/-- The method `(*Printer).PrintSingle`. -/
def Printer.PrintSingle {J : Type} (p : Printer) (data : PrintData J) : Written J :=
  if p.Format = "table" then
    p.printTable data
  else
    .jsonData data

/-- The method `(*Printer).FormatError`: the text written to `ErrOut`;
`jsonMarshal` is `json.Marshal` on a `map[string]string`. -/
def Printer.FormatError (jsonMarshal : GoMap String → String) (p : Printer) (msg : String) :
    String :=
  if p.Format = "json" then
    let errObj : GoMap String := [("error", msg)]
    let data := jsonMarshal errObj
    data ++ "\n"
  else
    "Error: " ++ msg ++ "\n"

/-- A `json.Marshal` for maps with the single key `error` and a value that needs
no escaping. -/
def marshalError (m : GoMap String) : String :=
  match m with
  | [(k, v)] => "\x7b\"" ++ k ++ "\":\"" ++ v ++ "\"\x7d"
  | _ => "\x7b\x7d"

/-- The scripted server of `scriptEnv` with an errors list whose only entry has a
`code` key and no `message` key. -/
def codeOnlyEnv : Env Nat (List Response) where
  Do := (scriptEnv decodeNats).Do
  urlParse := (scriptEnv decodeNats).urlParse
  httpNewRequest := (scriptEnv decodeNats).httpNewRequest
  unmarshalErrors := fun _ => some [[("code", "E42")]]
  unmarshalItems := decodeNats

/-! ## Link headers built entry by entry -/

/-- The quotation mark. -/
def dquote : Char := Char.ofNat 34

/-- One link entry `<u>; rel="r"`. -/
def linkEntry (e : String × String) : String :=
  "<" ++ e.1 ++ ">; rel=\"" ++ e.2 ++ "\""

/-- Link entries joined by `", "`: a pair is `(u, r)`. -/
def joinLinks : List (String × String) → String
  | [] => ""
  | [e] => linkEntry e
  | e :: e2 :: es => linkEntry e ++ ", " ++ joinLinks (e2 :: es)

/-- Well-formedness of a link entry: the URL is non-empty and free of `>`, the rel
value is free of the quotation mark. -/
abbrev entryOK (e : String × String) : Prop :=
  e.1 ≠ "" ∧ '>' ∉ e.1.data ∧ dquote ∉ e.2.data

/-! ## Closed form of `linkNextRe` (used in the proofs) -/

/-- The text `rel="next"`. -/
def relNext : List Char := "rel=\"next\"".data

/-- Closed form of the part of `linkNextRe` after group 1: `>;`, the run of
white space, `rel="next"`. -/
def linkTail (g : List Char) : List Char → Option (List Char × List Char)
  | d0 :: e0 :: e1 =>
    if d0 = '>' ∧ e0 = ';' then
      if relNext.isPrefixOf (e1.dropWhile CharClass.space.test) then
        some (g, (e1.dropWhile CharClass.space.test).drop relNext.length)
      else none
    else none
  | _ => none

/-- Closed form of a match of `linkNextRe` at the start of the input. -/
def linkMatch : List Char → Option (List Char × List Char)
  | c0 :: c :: cs =>
    if c0 = '<' ∧ c ≠ '>' then
      linkTail (c :: cs.takeWhile (CharClass.notChr '>').test)
        (cs.dropWhile (CharClass.notChr '>').test)
    else none
  | _ => none

/-! ## Lemmas on strings -/

theorem containsL_iff (sub s : List Char) : containsL sub s = true ↔ sub <:+: s := by
  induction s with
  | nil => simp [containsL, List.isEmpty_iff]
  | cons c cs ih =>
    simp only [containsL, Bool.or_eq_true, ih, List.infix_cons_iff, List.isPrefixOf_iff_prefix]

theorem stringsContains_iff (s sub : String) :
    stringsContains s sub = true ↔ sub.data <:+: s.data := by
  simp [stringsContains, containsL_iff]

theorem stringsContains_of_infix (s a b : String) (hab : a.data <:+: b.data)
    (h : stringsContains s b = true) : stringsContains s a = true := by
  rw [stringsContains_iff] at h ⊢
  exact hab.trans h

theorem isRequired_infix : "is required".data <:+: "API token is required".data :=
  ⟨"API token ".data, [], by decide⟩

theorem APIError.Error_contains (e : APIError) :
    stringsContains e.Error "API error" = true := by
  rw [stringsContains_iff]
  unfold APIError.Error
  split
  · refine ⟨[], (" (" ++ fmtD e.StatusCode ++ "): " ++ e.Message).data, ?_⟩
    simp [String.data_append]
  · refine ⟨[], (" (" ++ fmtD e.StatusCode ++ ")").data, ?_⟩
    simp [String.data_append]

theorem classifyError_some (e : GoError) :
    classifyError (some e) =
      if stringsContains e.Error "is required" then ExitConfig
      else if e.asAPIError.isSome then ExitAPI
      else if stringsContains e.Error "network error" then ExitNetwork
      else if stringsContains e.Error "API error" then ExitAPI
      else ExitGeneral := by
  have hreq : stringsContains e.Error "API token is required" = true →
      stringsContains e.Error "is required" = true :=
    stringsContains_of_infix _ _ _ isRequired_infix
  unfold classifyError
  cases h1 : stringsContains e.Error "is required"
  · cases h0 : stringsContains e.Error "API token is required"
    · cases h2 : e.asAPIError <;> simp [h0, h1, h2]
    · rw [hreq h0] at h1; cases h1
  · simp [h1]

/-! ## Lemmas on the matcher -/

theorem rep_eq_of_cont_fails {β : Type} (p : Char → Bool)
    (k : List Char → List Char → Option β)
    (hk : ∀ acc c cs, p c = true → k acc (c :: cs) = none) (acc s : List Char) :
    rep p k acc s = k (acc ++ s.takeWhile p) (s.dropWhile p) := by
  induction s generalizing acc with
  | nil => simp [rep]
  | cons c cs ih =>
    by_cases hp : p c = true
    · simp only [rep, hp, if_true, List.takeWhile_cons, List.dropWhile_cons, ih, hk acc c cs hp]
      rw [List.append_assoc, List.singleton_append]
      generalize k (acc ++ c :: List.takeWhile p cs) (List.dropWhile p cs) = r
      cases r <;> rfl
    · simp [rep, hp, List.takeWhile_cons, List.dropWhile_cons]

theorem matchHere_lits (l : List Char) (rest : List ReItem) (cap s : List Char) :
    matchHere (l.map (fun c => ReItem.one (.chr c)) ++ rest) cap s =
      if l.isPrefixOf s then matchHere rest cap (s.drop l.length) else none := by
  induction l generalizing s with
  | nil => simp
  | cons a l ih =>
    cases s with
    | nil => simp [matchHere]
    | cons c cs =>
      by_cases h : c = a
      · subst h
        simp only [List.map_cons, List.cons_append, matchHere, CharClass.test, ih,
          List.isPrefixOf, List.length_cons, List.drop_succ_cons, beq_self_eq_true, if_true,
          Bool.true_and]
        exact ih cs
      · have h2 : a ≠ c := fun e => h e.symm
        simp [matchHere, CharClass.test, List.isPrefixOf, h, h2]

theorem matchHere_one_cons (k : CharClass) (rest : List ReItem) (cap : List Char) (c : Char)
    (cs : List Char) :
    matchHere (.one k :: rest) cap (c :: cs) =
      if k.test c then matchHere rest cap cs else none := rfl

theorem matchHere_star (k : CharClass) (rest : List ReItem) (cap s : List Char) :
    matchHere (.star k :: rest) cap s =
      rep k.test (fun _ s1 => matchHere rest cap s1) [] s := rfl

theorem matchHere_capPlus_cons (k : CharClass) (rest : List ReItem) (cap : List Char)
    (c : Char) (cs : List Char) :
    matchHere (.capPlus k :: rest) cap (c :: cs) =
      if k.test c then rep k.test (fun acc s1 => matchHere rest acc s1) [c] cs else none := rfl

theorem matchHere_lits_nil (l cap s : List Char) :
    matchHere (l.map (fun c => ReItem.one (.chr c))) cap s =
      if l.isPrefixOf s then some (cap, s.drop l.length) else none := by
  have h := matchHere_lits l [] cap s
  simpa [matchHere] using h

theorem matchHere_afterGroup (g t : List Char) :
    matchHere (.one (.chr '>') :: .one (.chr ';') :: .star .space :: lits "rel=\"next\"") g t
      = linkTail g t := by
  have hsp : ∀ (acc : List Char) (c : Char) (cs : List Char),
      CharClass.space.test c = true →
      (fun (_ : List Char) s1 => matchHere (lits "rel=\"next\"") g s1) acc (c :: cs) = none := by
    intro acc c cs h
    have h1 : (c == 'r') = false := by
      rcases Bool.eq_false_or_eq_true (c == 'r') with h2 | h2
      · rw [beq_iff_eq] at h2; subst h2; revert h; decide
      · exact h2
    show matchHere (.one (.chr 'r') :: _) g (c :: cs) = none
    simp [matchHere, CharClass.test, h1]
  match t with
  | [] => simp [matchHere, linkTail]
  | [d0] => by_cases h : d0 = '>' <;> simp [matchHere, linkTail, CharClass.test, h]
  | d0 :: e0 :: e1 =>
    by_cases h : d0 = '>'
    · by_cases h2 : e0 = ';'
      · subst h; subst h2
        rw [matchHere_one_cons, matchHere_one_cons, matchHere_star,
          rep_eq_of_cont_fails _ _ hsp]
        simp only [linkTail, CharClass.test, beq_self_eq_true, if_true, and_self]
        exact matchHere_lits_nil relNext g _
      · simp [matchHere, linkTail, CharClass.test, h, h2]
    · simp [matchHere, linkTail, CharClass.test, h]

theorem matchHere_linkNextRe (cap s : List Char) :
    matchHere linkNextRe cap s = linkMatch s := by
  have hgt : ∀ (acc : List Char) (c : Char) (cs : List Char),
      (CharClass.notChr '>').test c = true →
      (fun acc s1 => matchHere
        (.one (.chr '>') :: .one (.chr ';') :: .star .space :: lits "rel=\"next\"") acc s1)
        acc (c :: cs) = none := by
    intro acc c cs h
    have h1 : (c == '>') = false := by simpa [CharClass.test] using h
    simp [matchHere, CharClass.test, h1]
  match s with
  | [] => simp [matchHere, linkMatch, linkNextRe]
  | [c0] => by_cases h : c0 = '<' <;> simp [matchHere, linkMatch, linkNextRe, CharClass.test, h]
  | c0 :: c :: cs =>
    by_cases h : c0 = '<'
    · by_cases h2 : c = '>'
      · simp [matchHere, linkMatch, linkNextRe, CharClass.test, h, h2]
      · subst h
        have h3 : (CharClass.notChr '>').test c = true := by simpa [CharClass.test] using h2
        simp only [linkNextRe, List.cons_append, List.nil_append]
        rw [matchHere_one_cons, matchHere_capPlus_cons, rep_eq_of_cont_fails _ _ hgt]
        simp only [linkMatch, CharClass.test, beq_self_eq_true, if_true, bne_iff_ne, ne_eq, h2,
          not_false_eq_true, and_self, h3, List.singleton_append]
        have h4 := matchHere_afterGroup (c :: List.takeWhile (CharClass.notChr '>').test cs)
          (List.dropWhile (CharClass.notChr '>').test cs)
        simpa [CharClass.test] using h4
    · simp [matchHere, linkMatch, linkNextRe, CharClass.test, h]

theorem takeWhile_append_stop (p : Char → Bool) (a r : List Char) (x : Char)
    (ha : ∀ c ∈ a, p c = true) (hx : p x = false) :
    (a ++ x :: r).takeWhile p = a ∧ (a ++ x :: r).dropWhile p = x :: r := by
  induction a with
  | nil => simp [List.takeWhile_cons, List.dropWhile_cons, hx]
  | cons c cs ih =>
    have hc : p c = true := ha c (List.mem_cons_self _ _)
    have ih2 := ih (fun d hd => ha d (List.mem_cons_of_mem _ hd))
    simp [List.takeWhile_cons, List.dropWhile_cons, hc, ih2.1, ih2.2]

theorem linkTail_eq_some_iff (g0 t g rest : List Char) :
    linkTail g0 t = some (g, rest) ↔
      g = g0 ∧ ∃ ws, t = '>' :: ';' :: ws ++ relNext ++ rest ∧
        ∀ c ∈ ws, CharClass.space.test c = true := by
  constructor
  · intro h
    match t, h with
    | d0 :: e0 :: e1, h =>
      simp only [linkTail] at h
      split_ifs at h with h1 h2
      obtain ⟨rfl, rfl⟩ := h1
      simp only [Option.some.injEq, Prod.mk.injEq] at h
      obtain ⟨rfl, rfl⟩ := h
      refine ⟨rfl, e1.takeWhile CharClass.space.test, ?_, ?_⟩
      · rw [List.isPrefixOf_iff_prefix, List.prefix_iff_eq_append] at h2
        simp only [List.cons_append, List.append_assoc, h2, List.takeWhile_append_dropWhile]
      · intro c hc
        exact (List.mem_takeWhile_imp hc)
  · rintro ⟨rfl, ws, rfl, hws⟩
    have hr : CharClass.space.test 'r' = false := by decide
    have h := takeWhile_append_stop CharClass.space.test ws ("el=\"next\"".data ++ rest) 'r'
      hws hr
    have e : ws ++ (relNext ++ rest) = ws ++ 'r' :: ("el=\"next\"".data ++ rest) := rfl
    have e2 : 'r' :: ("el=\"next\"".data ++ rest) = relNext ++ rest := rfl
    have e3 : relNext.isPrefixOf (relNext ++ rest) = true := by
      rw [List.isPrefixOf_iff_prefix]
      exact List.prefix_append _ _
    simp only [List.cons_append, List.append_assoc, linkTail, and_self, if_true]
    rw [e, h.2, e2, e3]
    simp

theorem linkMatch_eq_some_iff (s g rest : List Char) :
    linkMatch s = some (g, rest) ↔
      ∃ ws, s = '<' :: g ++ '>' :: ';' :: ws ++ relNext ++ rest ∧ g ≠ [] ∧
        (∀ c ∈ g, c ≠ '>') ∧ ∀ c ∈ ws, CharClass.space.test c = true := by
  constructor
  · intro h
    match s, h with
    | c0 :: c :: cs, h =>
      simp only [linkMatch] at h
      split_ifs at h with h1
      obtain ⟨rfl, hc⟩ := h1
      rw [linkTail_eq_some_iff] at h
      obtain ⟨rfl, ws, ht, hws⟩ := h
      refine ⟨ws, ?_, by simp, ?_, hws⟩
      · have := List.takeWhile_append_dropWhile (CharClass.notChr '>').test cs
        rw [ht] at this
        simp only [List.cons_append, List.append_assoc] at this ⊢
        rw [this]
      · intro d hd
        rcases List.mem_cons.1 hd with rfl | hd
        · exact hc
        · have := List.mem_takeWhile_imp hd
          simpa [CharClass.test] using this
  · rintro ⟨ws, rfl, hg, hgt, hws⟩
    match g, hg, hgt with
    | c :: g1, _, hgt =>
      have hc : c ≠ '>' := hgt c (List.mem_cons_self _ _)
      have h := takeWhile_append_stop (CharClass.notChr '>').test g1
        (';' :: ws ++ relNext ++ rest) '>'
        (fun d hd => by simpa [CharClass.test] using hgt d (List.mem_cons_of_mem _ hd))
        (by decide)
      simp only [List.cons_append, List.append_assoc] at h ⊢
      simp only [linkMatch, hc, ne_eq, not_false_eq_true, and_self, if_true, h.1, h.2]
      rw [linkTail_eq_some_iff]
      exact ⟨rfl, ws, by simp, hws⟩

/-! ## The error classifier -/

/-- C1: for every error value (nil included), `classifyError` returns what the
first matching rule of the ordered list nil, "is required", typed API error,
"network error", "API error", otherwise gives: 0, 2, 3, 4, 3, 1. -/
theorem classifyError_eq_classifySpec (err : Option GoError) :
    classifyError err = classifySpec err := by
  cases err with
  | none => rfl
  | some e => rw [classifyError_some]; rfl

/-- C2: `classifyError` returns 0 exactly for the nil error, and for every
non-nil error it returns one of 1, 2, 3, 4. -/
theorem classifyError_zero_iff_nil (err : Option GoError) :
    (classifyError err = 0 ↔ err = none) ∧
    (∀ e, err = some e → classifyError err = 1 ∨ classifyError err = 2 ∨
      classifyError err = 3 ∨ classifyError err = 4) := by
  cases err with
  | none => simp [classifyError, ExitOK]
  | some e =>
    rw [classifyError_some]
    simp only [ExitConfig, ExitAPI, ExitNetwork, ExitGeneral]
    constructor
    · constructor
      · intro h; split_ifs at h <;> omega
      · intro h; cases h
    · intro _ _; split_ifs <;> simp

/-- C2 at a concrete failed command: a plain error classifies as 1. -/
theorem classifyError_zero_iff_nil_witness :
    classifyError (some (.errorString "something went wrong")) = 1 ∨
    classifyError (some (.errorString "something went wrong")) = 2 ∨
    classifyError (some (.errorString "something went wrong")) = 3 ∨
    classifyError (some (.errorString "something went wrong")) = 4 :=
  (classifyError_zero_iff_nil (some (.errorString "something went wrong"))).2 _ rfl

/-- C3 as stated fails: the typed API error with status 422 and message
"name is required" is classified as CONFIG (2), not API (3). -/
theorem classifyError_api_isRequired_counterexample :
    classifyError (some (.api ⟨422, "name is required", []⟩)) = 2 ∧
    classifyError (some (.api ⟨422, "name is required", []⟩)) ≠ ExitAPI := by
  decide

/-- C3, amended: a typed API error is classified as API (3) unless its `Error()`
text contains "is required", in which case it is classified as CONFIG (2). -/
theorem classifyError_api (e : APIError) :
    classifyError (some (.api e)) =
      if stringsContains e.Error "is required" then ExitConfig else ExitAPI := by
  rw [classifyError_some]
  simp [GoError.asAPIError, GoError.Error]

/-- C4: a typed API error whose message contains "network error" and whose string
form does not contain "is required" is classified as API (3), not NETWORK (4). -/
theorem classifyError_api_networkText (e : APIError)
    (hnet : stringsContains e.Message "network error" = true)
    (hreq : stringsContains e.Error "is required" = false) :
    classifyError (some (.api e)) = ExitAPI ∧ classifyError (some (.api e)) ≠ ExitNetwork := by
  have _ := hnet
  rw [classifyError_some]
  simp [GoError.asAPIError, GoError.Error, hreq, ExitAPI, ExitNetwork]

/-- C4 at status 401 with message "network error". -/
theorem classifyError_api_networkText_witness :
    classifyError (some (.api ⟨401, "network error", []⟩)) = ExitAPI ∧
    classifyError (some (.api ⟨401, "network error", []⟩)) ≠ ExitNetwork :=
  classifyError_api_networkText ⟨401, "network error", []⟩ (by decide) (by decide)

/-- C5 as stated fails: the typed API error with status 401 and message
"network error" is classified as API (3), while the plain error carrying its
text "API error (401): network error" is classified as NETWORK (4). -/
theorem classifyError_representations_counterexample :
    classifyError (some (.api ⟨401, "network error", []⟩)) = 3 ∧
    classifyError (some (.errorString (APIError.Error ⟨401, "network error", []⟩))) = 4 := by
  decide

/-- C5, amended: a typed API error and the plain error carrying its `Error()` text
are classified alike exactly when that text contains "is required" or does not
contain "network error". -/
theorem classifyError_representations_agree_iff (e : APIError) :
    classifyError (some (.api e)) = classifyError (some (.errorString e.Error)) ↔
      (stringsContains e.Error "is required" = true ∨
        stringsContains e.Error "network error" = false) := by
  rw [classifyError_some, classifyError_some]
  simp only [GoError.asAPIError, GoError.Error, Option.isSome_some, Option.isSome_none,
    APIError.Error_contains, if_true, ExitConfig, ExitAPI, ExitNetwork]
  cases stringsContains e.Error "is required" <;>
    cases stringsContains e.Error "network error" <;> simp

/-- C6: `getAPIToken` returns a non-empty configured token unchanged with no error;
for the empty token it returns an error whose message contains
"API token is required", which `classifyError` maps to CONFIG (2). -/
theorem getAPIToken_contract (token : String) :
    (token ≠ "" → getAPIToken token = (token, none)) ∧
    (token = "" → ∃ e, getAPIToken token = ("", some e) ∧
      stringsContains e.Error "API token is required" = true ∧
      classifyError (some e) = ExitConfig) := by
  constructor
  · intro h; simp [getAPIToken, h]
  · intro h
    subst h
    exact ⟨_, rfl, by decide, by decide⟩

/-- C6 at the token "test-token-abc". -/
theorem getAPIToken_contract_witness :
    getAPIToken "test-token-abc" = ("test-token-abc", none) :=
  (getAPIToken_contract "test-token-abc").1 (by decide)

/-! ## The link-header parser -/

theorem FindStringSubmatch_cons_none (re : List ReItem) (c : Char) (cs : List Char)
    (h : matchHere re [] (c :: cs) = none) :
    FindStringSubmatch re (c :: cs) = FindStringSubmatch re cs := by
  simp [FindStringSubmatch, h]

theorem FindStringSubmatch_of_match (re : List ReItem) (a t g rest : List Char)
    (hno : ∀ a1 b, a = a1 ++ b → b ≠ [] → matchHere re [] (b ++ t) = none)
    (hm : matchHere re [] t = some (g, rest)) :
    FindStringSubmatch re (a ++ t) = [t.take (t.length - rest.length), g] := by
  induction a with
  | nil =>
    cases t with
    | nil => simp [FindStringSubmatch, hm]
    | cons c cs => simp [FindStringSubmatch, hm]
  | cons c a ih =>
    have h0 : matchHere re [] (c :: (a ++ t)) = none :=
      hno [] (c :: a) rfl (by simp)
    have ih2 := ih (fun a1 b e hb => hno (c :: a1) b (by rw [e]; rfl) hb)
    rw [List.cons_append, FindStringSubmatch_cons_none _ _ _ h0, ih2]

theorem FindStringSubmatch_cases (re : List ReItem) (s : List Char) :
    FindStringSubmatch re s = [] ∨
      ∃ a t g rest, s = a ++ t ∧ matchHere re [] t = some (g, rest) ∧
        FindStringSubmatch re s = [t.take (t.length - rest.length), g] := by
  induction s with
  | nil =>
    cases h : matchHere re [] [] with
    | none => left; simp [FindStringSubmatch, h]
    | some r =>
      right
      exact ⟨[], [], r.1, r.2, rfl, h, by simp [FindStringSubmatch, h]⟩
  | cons c cs ih =>
    cases h : matchHere re [] (c :: cs) with
    | none =>
      rcases ih with h1 | ⟨a, t, g, rest, e, hm, hf⟩
      · left; simp [FindStringSubmatch, h, h1]
      · right
        exact ⟨c :: a, t, g, rest, by rw [e]; rfl, hm, by simp [FindStringSubmatch, h, hf]⟩
    | some r =>
      right
      exact ⟨[], c :: cs, r.1, r.2, rfl, h, by simp [FindStringSubmatch, h]⟩

theorem parseLinkHeader_of_find_nil (header : String)
    (h : FindStringSubmatch linkNextRe header.data = []) : parseLinkHeader header = "" := by
  simp [parseLinkHeader, h]

theorem parseLinkHeader_of_find (header : String) (w g : List Char)
    (h : FindStringSubmatch linkNextRe header.data = [w, g]) :
    parseLinkHeader header = String.mk g := by
  simp [parseLinkHeader, h]

theorem relNext_infix_of_find (s : List Char)
    (h : FindStringSubmatch linkNextRe s ≠ []) : relNext <:+: s := by
  rcases FindStringSubmatch_cases linkNextRe s with h1 | ⟨a, t, g, rest, e, hm, _⟩
  · exact absurd h1 h
  · rw [matchHere_linkNextRe, linkMatch_eq_some_iff] at hm
    obtain ⟨ws, ht, _, _, _⟩ := hm
    refine ⟨a ++ '<' :: g ++ '>' :: ';' :: ws, rest, ?_⟩
    rw [e, ht]
    simp

/-- C8: for every header that does not contain the text `rel="next"` (the empty
header included), `parseLinkHeader` returns the empty string. -/
theorem parseLinkHeader_without_next (header : String)
    (hno : stringsContains header "rel=\"next\"" = false) :
    parseLinkHeader header = "" := by
  apply parseLinkHeader_of_find_nil
  by_contra hne
  have h := relNext_infix_of_find _ hne
  have h2 : stringsContains header "rel=\"next\"" = true := (stringsContains_iff _ _).2 h
  rw [hno] at h2
  cases h2

/-- C8 at the empty header and at headers whose entries carry `rel="last"` or
`rel="prev"`. -/
theorem parseLinkHeader_without_next_witness :
    parseLinkHeader "" = "" ∧
    parseLinkHeader "<https://api.bugsnag.com/projects>; rel=\"last\"" = "" ∧
    parseLinkHeader "<https://a/p?offset=1>; rel=\"prev\", <https://a/p?offset=9>; rel=\"last\""
      = "" :=
  ⟨parseLinkHeader_without_next _ (by decide),
   parseLinkHeader_without_next _ (by decide),
   parseLinkHeader_without_next _ (by decide)⟩

theorem linkMatch_head_ne (c : Char) (x : List Char) (h : c ≠ '<') :
    linkMatch (c :: x) = none := by
  cases x with
  | nil => rfl
  | cons d x => simp [linkMatch, h]

theorem linkEntry_data (e : String × String) :
    (linkEntry e).data = '<' :: (e.1.data ++ ('>' :: ';' :: ' ' :: 'r' :: 'e' :: 'l' :: '=' ::
      dquote :: (e.2.data ++ [dquote]))) := by
  simp [linkEntry, String.data_append]
  rfl

theorem joinLinks_cons_data (e : String × String) (es : List (String × String))
    (h : es ≠ []) :
    (joinLinks (e :: es)).data = (linkEntry e).data ++ (',' :: ' ' :: (joinLinks es).data) := by
  cases es with
  | nil => exact absurd rfl h
  | cons e2 es => simp [joinLinks, String.data_append]

theorem next_of_quoted (r X rest : List Char) (hq : dquote ∉ r)
    (h : r ++ dquote :: X = 'n' :: 'e' :: 'x' :: 't' :: dquote :: rest) :
    r = ['n', 'e', 'x', 't'] := by
  have h1 := takeWhile_append_stop (fun c => c != dquote) r X dquote
    (fun c hc => by
      have : c ≠ dquote := fun e => hq (e ▸ hc)
      simpa using this)
    (by simp)
  have h2 := takeWhile_append_stop (fun c => c != dquote) ['n', 'e', 'x', 't'] rest dquote
    (by decide) (by simp)
  rw [h] at h1
  exact h1.1.symm.trans h2.1

theorem linkTail_other_rel (g r X : List Char) (hq : dquote ∉ r)
    (hne : r ≠ ['n', 'e', 'x', 't']) :
    linkTail g ('>' :: ';' :: ' ' :: 'r' :: 'e' :: 'l' :: '=' :: dquote :: (r ++ dquote :: X))
      = none := by
  cases h : linkTail g
      ('>' :: ';' :: ' ' :: 'r' :: 'e' :: 'l' :: '=' :: dquote :: (r ++ dquote :: X)) with
  | none => rfl
  | some res =>
    exfalso
    obtain ⟨g1, rest⟩ := res
    rw [linkTail_eq_some_iff] at h
    obtain ⟨_, ws, e, hws⟩ := h
    simp only [List.cons_append, List.cons.injEq, true_and] at e
    have h1 := takeWhile_append_stop CharClass.space.test [' ']
      ('e' :: 'l' :: '=' :: dquote :: (r ++ dquote :: X)) 'r' (by decide) (by decide)
    have h2 := takeWhile_append_stop CharClass.space.test ws
      ('e' :: 'l' :: '=' :: dquote :: 'n' :: 'e' :: 'x' :: 't' :: dquote :: rest) 'r'
      hws (by decide)
    have e2 : ws ++ relNext ++ rest = ws ++ 'r' ::
        ('e' :: 'l' :: '=' :: dquote :: 'n' :: 'e' :: 'x' :: 't' :: dquote :: rest) := by
      rw [List.append_assoc]; rfl
    rw [e2] at e
    have e3 := congrArg (List.dropWhile CharClass.space.test) e
    rw [h2.2] at e3
    have h1b : List.dropWhile CharClass.space.test
        (' ' :: 'r' :: 'e' :: 'l' :: '=' :: dquote :: (r ++ dquote :: X)) =
        'r' :: 'e' :: 'l' :: '=' :: dquote :: (r ++ dquote :: X) := h1.2
    rw [h1b] at e3
    simp only [List.cons.injEq, true_and] at e3
    exact hne (next_of_quoted r X rest hq e3)

theorem data_ne_nil_of_ne_empty (u : String) (h : u ≠ "") : u.data ≠ [] := by
  intro e
  apply h
  cases u
  simp only at e
  subst e
  rfl

theorem linkMatch_in_entry (e : String × String) (hgt : '>' ∉ e.1.data)
    (hq : dquote ∉ e.2.data) (hlt : '<' ∉ e.2.data) (hne : e.2 ≠ "next") (T a1 b : List Char)
    (hsplit : (linkEntry e).data ++ [',', ' '] = a1 ++ b) (hb : b ≠ []) :
    linkMatch (b ++ T) = none := by
  have hr : e.2.data ≠ ['n', 'e', 'x', 't'] := by
    intro h
    apply hne
    cases h2 : e.2
    rw [h2] at h
    simp only at h
    subst h
    rfl
  -- the text after the URL holds no `<`
  have hW : ∀ c ∈ ('>' :: ';' :: ' ' :: 'r' :: 'e' :: 'l' :: '=' :: dquote ::
      (e.2.data ++ [dquote])) ++ [',', ' '], c ≠ '<' := by
    intro c hc h
    subst h
    have hd : '<' ≠ dquote := by decide
    simp [hd] at hc
    exact hlt hc
  have hsuffixW : ∀ a2 b2 : List Char,
      ('>' :: ';' :: ' ' :: 'r' :: 'e' :: 'l' :: '=' :: dquote ::
        (e.2.data ++ [dquote])) ++ [',', ' '] = a2 ++ b2 → b2 ≠ [] →
      linkMatch (b2 ++ T) = none := by
    intro a2 b2 h2 hb2
    cases b2 with
    | nil => exact absurd rfl hb2
    | cons c b3 =>
      apply linkMatch_head_ne
      apply hW
      rw [h2]
      simp
  rw [linkEntry_data] at hsplit
  have hsplit2 : ('<' :: e.1.data) ++ (('>' :: ';' :: ' ' :: 'r' :: 'e' :: 'l' :: '=' ::
      dquote :: (e.2.data ++ [dquote])) ++ [',', ' ']) = a1 ++ b := by
    rw [← hsplit]; simp
  rcases List.append_eq_append_iff.1 hsplit2 with ⟨a', _, hW2⟩ | ⟨c', hc', hb2⟩
  · exact hsuffixW a' b hW2 hb
  · cases c' with
    | nil =>
      rw [List.nil_append] at hb2
      exact hsuffixW [] b (by rw [hb2]; rfl) hb
    | cons c v =>
      -- the suffix starts inside `<u`: the group runs to the closing `>`
      have hv : ∀ d ∈ v, d ≠ '>' := by
        intro d hd h
        subst h
        have hmem : '>' ∈ '<' :: e.1.data := by
          rw [hc']
          exact List.mem_append_right _ (List.mem_cons_of_mem _ hd)
        rcases List.mem_cons.1 hmem with h3 | h3
        · exact absurd h3 (by decide)
        · exact hgt h3
      rw [hb2]
      by_cases hc : c = '<'
      · cases v with
        | nil => simp [linkMatch]
        | cons d v1 =>
          have hd : d ≠ '>' := hv d (List.mem_cons_self _ _)
          have htw := takeWhile_append_stop (CharClass.notChr '>').test v1
            ((';' :: ' ' :: 'r' :: 'e' :: 'l' :: '=' :: dquote ::
              (e.2.data ++ dquote :: (',' :: ' ' :: T)))) '>'
            (fun x hx => by
              simpa [CharClass.test] using hv x (List.mem_cons_of_mem _ hx))
            (by decide)
          have e1 : (c :: d :: v1 ++ (('>' :: ';' :: ' ' :: 'r' :: 'e' :: 'l' :: '=' ::
              dquote :: (e.2.data ++ [dquote])) ++ [',', ' '])) ++ T =
              c :: d :: (v1 ++ '>' :: (';' :: ' ' :: 'r' :: 'e' :: 'l' :: '=' :: dquote ::
                (e.2.data ++ dquote :: (',' :: ' ' :: T)))) := by
            simp
          rw [e1]
          simp only [linkMatch, hc, hd, ne_eq, not_false_eq_true, and_self, if_true,
            htw.1, htw.2]
          exact linkTail_other_rel _ _ _ hq hr
      · exact linkMatch_head_ne _ _ hc

theorem joinLinks_skip (pre : List (String × String)) (x : String × String)
    (post : List (String × String))
    (hpre : ∀ e ∈ pre, entryOK e ∧ '<' ∉ e.2.data ∧ e.2 ≠ "next") :
    ∃ a, (joinLinks (pre ++ x :: post)).data = a ++ (joinLinks (x :: post)).data ∧
      ∀ a1 b, a = a1 ++ b → b ≠ [] →
        linkMatch (b ++ (joinLinks (x :: post)).data) = none := by
  induction pre with
  | nil => exact ⟨[], rfl, fun a1 b h hb => by simp_all⟩
  | cons e pre ih =>
    obtain ⟨a, ha, hno⟩ := ih (fun d hd => hpre d (List.mem_cons_of_mem _ hd))
    obtain ⟨⟨_, hgt, hq⟩, hlt, hne⟩ := hpre e (List.mem_cons_self _ _)
    refine ⟨((linkEntry e).data ++ [',', ' ']) ++ a, ?_, ?_⟩
    · rw [List.cons_append, joinLinks_cons_data _ _ (by simp), ha]
      simp
    · intro a1 b hsplit hb
      rcases List.append_eq_append_iff.1 hsplit with ⟨a', _, h2⟩ | ⟨c', h1, h2⟩
      · exact hno a' b h2 hb
      · cases c' with
        | nil =>
          rw [List.nil_append] at h2
          exact hno [] b (by rw [h2]; rfl) hb
        | cons c v =>
          rw [h2, List.append_assoc]
          exact linkMatch_in_entry e hgt hq hlt hne _ a1 (c :: v) h1 (by simp)

/-- C7 as stated fails: in the header `<a>; rel="<x", <b>; rel="next"` every URL
is non-empty and free of `>`, every rel value is free of the quotation mark and
exactly one entry has rel `next`, yet `parseLinkHeader` returns `x", <b` and not
the URL `b` of that entry. -/
theorem parseLinkHeader_single_next_counterexample :
    (∀ e ∈ [("a", "<x"), ("b", "next")], entryOK e) ∧
    (("a", "<x") : String × String).2 ≠ "next" ∧
    joinLinks [("a", "<x"), ("b", "next")] = "<a>; rel=\"<x\", <b>; rel=\"next\"" ∧
    parseLinkHeader (joinLinks [("a", "<x"), ("b", "next")]) = "x\", <b" ∧
    parseLinkHeader (joinLinks [("a", "<x"), ("b", "next")]) ≠ "b" := by
  decide

/-- C7, amended: for every header built as link entries `<u_i>; rel="r_i"` joined
by `", "`, each `u_i` non-empty and free of `>`, each `r_i` free of the quotation
mark, in which exactly one entry has rel `next` and the rel values of the entries
before it are free of `<`, `parseLinkHeader` returns that entry's URL, whatever
its position (`pre` and `post` are the entries before and after it). -/
theorem parseLinkHeader_single_next (pre post : List (String × String)) (u : String)
    (hu : entryOK (u, "next"))
    (hpre : ∀ e ∈ pre, entryOK e ∧ '<' ∉ e.2.data ∧ e.2 ≠ "next")
    (hpost : ∀ e ∈ post, entryOK e ∧ e.2 ≠ "next") :
    parseLinkHeader (joinLinks (pre ++ (u, "next") :: post)) = u := by
  have _ := hpost
  obtain ⟨a, ha, hno⟩ := joinLinks_skip pre (u, "next") post hpre
  obtain ⟨hne, hgt, _⟩ := hu
  -- the entry with rel `next` matches, with group 1 the URL
  have hm : ∃ rest, linkMatch (joinLinks ((u, "next") :: post)).data = some (u.data, rest) := by
    have hshape : ∃ rest, (joinLinks ((u, "next") :: post)).data =
        '<' :: u.data ++ '>' :: ';' :: [' '] ++ relNext ++ rest := by
      cases post with
      | nil => exact ⟨[], by simp [joinLinks, linkEntry_data]; rfl⟩
      | cons e2 es =>
        exact ⟨',' :: ' ' :: (joinLinks (e2 :: es)).data, by
          rw [joinLinks_cons_data _ _ (by simp), linkEntry_data]; simp; rfl⟩
    obtain ⟨rest, hs⟩ := hshape
    refine ⟨rest, ?_⟩
    rw [linkMatch_eq_some_iff]
    exact ⟨[' '], hs, data_ne_nil_of_ne_empty u hne,
      fun c hc h => hgt (h ▸ hc), by decide⟩
  obtain ⟨rest, hm⟩ := hm
  have hfind := FindStringSubmatch_of_match linkNextRe a _ u.data rest
    (fun a1 b h hb => by rw [matchHere_linkNextRe]; exact hno a1 b h hb)
    (by rw [matchHere_linkNextRe]; exact hm)
  rw [← ha] at hfind
  rw [parseLinkHeader_of_find _ _ _ hfind]

/-- C7 at the headers of the test suite and at a header with the `next` entry in
the middle. -/
theorem parseLinkHeader_single_next_witness :
    parseLinkHeader (joinLinks ([("https://a/p?offset=1", "prev")] ++
      ("https://a/p?offset=abc", "next") :: [("https://a/p?offset=xyz", "last")]))
      = "https://a/p?offset=abc" :=
  parseLinkHeader_single_next [("https://a/p?offset=1", "prev")]
    [("https://a/p?offset=xyz", "last")] "https://a/p?offset=abc"
    (by decide) (by decide) (by decide)

/-! ## The page fetcher -/

theorem fetchPage_ok {T σ : Type} (env : Env T σ) (c : Client) (s s1 : σ) (req : Request)
    (p : PageResult T) (h : fetchPage env c s req = (.ok p, s1)) :
    ∃ resp, env.Do s req = (.ok resp, s1) ∧ resp.StatusCode < 400 ∧
      env.unmarshalItems resp.Body = .ok p.Items ∧
      p.NextURL = parseLinkHeader (headerGet resp.Header "Link") ∧
      p.HasMore = (p.NextURL != "") := by
  unfold fetchPage at h
  split at h
  · cases h
  · rename_i resp s2 hdo
    split_ifs at h with hst
    · dsimp only at h
      split at h <;> simp at h
    · split at h
      · cases h
      · split at h
        · cases h
        · rename_i items hitems
          simp only [Prod.mk.injEq, Except.ok.injEq] at h
          obtain ⟨rfl, rfl⟩ := h
          exact ⟨resp, hdo, by omega, hitems, rfl, rfl⟩

/-- C9: every page result returned by `fetchPage` has `HasMore` true exactly when
`NextURL` is non-empty, and `NextURL` is `parseLinkHeader` of the response's
`Link` header; and when `FetchSinglePage` succeeds its has-more flag is true
exactly when `parseLinkHeader` of the response's `Link` header is non-empty. -/
theorem fetchPage_hasMore_iff {T σ : Type} (env : Env T σ) (c : Client) (s : σ) :
    (∀ (req : Request) (p : PageResult T) (s1 : σ),
      fetchPage env c s req = (.ok p, s1) →
        (p.HasMore = true ↔ p.NextURL ≠ "") ∧
        ∃ resp, env.Do s req = (.ok resp, s1) ∧
          p.NextURL = parseLinkHeader (headerGet resp.Header "Link")) ∧
    (∀ (path : String) (params : Option (GoMap String)) (items : List T) (hasMore : Bool)
      (s1 : σ),
      FetchSinglePage env c s path params = ((items, hasMore, none), s1) →
        ∃ req resp, c.newRequest env "GET" path (toURLValues params) = .ok req ∧
          env.Do s req = (.ok resp, s1) ∧
          (hasMore = true ↔ parseLinkHeader (headerGet resp.Header "Link") ≠ "")) := by
  constructor
  · intro req p s1 h
    obtain ⟨resp, hdo, _, _, hnext, hmore⟩ := fetchPage_ok env c s s1 req p h
    exact ⟨by rw [hmore]; simp, resp, hdo, hnext⟩
  · intro path params items hasMore s1 h
    unfold FetchSinglePage at h
    split at h
    · cases h
    · rename_i req hreq
      split at h
      · cases h
      · rename_i result s2 hfetch
        simp only [Prod.mk.injEq] at h
        obtain ⟨⟨rfl, rfl, _⟩, rfl⟩ := h
        obtain ⟨resp, hdo, _, _, hnext, hmore⟩ := fetchPage_ok env c s s2 req result hfetch
        exact ⟨req, resp, hreq, hdo, by rw [hmore, hnext]; simp⟩

/-- C9 at a server answering 200 with a next link: `FetchSinglePage` returns the
items with has-more true, and the `Link` header yields a next URL. -/
theorem fetchPage_hasMore_iff_witness :
    FetchSinglePage demoEnv ⟨"https://api.bugsnag.com", "tok", 30⟩ 0 "/test" none
      = (([1, 2], true, none), 1) ∧
    ∃ req resp, Client.newRequest demoEnv ⟨"https://api.bugsnag.com", "tok", 30⟩ "GET" "/test"
        (toURLValues none) = .ok req ∧
      demoEnv.Do 0 req = (.ok resp, 1) ∧
      (true = true ↔ parseLinkHeader (headerGet resp.Header "Link") ≠ "") :=
  ⟨by decide,
   (fetchPage_hasMore_iff demoEnv ⟨"https://api.bugsnag.com", "tok", 30⟩ 0).2
     "/test" none [1, 2] true 1 (by decide)⟩

/-! ## Maps and `toURLValues` -/

theorem mapGet_mapSet_same {β : Type} (m : GoMap β) (k : String) (v : β) :
    mapGet (mapSet m k v) k = some v := by
  induction m with
  | nil => simp [mapSet, mapGet]
  | cons kv m ih =>
    obtain ⟨k1, v1⟩ := kv
    by_cases h : k1 = k
    · simp [mapSet, mapGet, h]
    · simp [mapSet, mapGet, h, ih]

theorem mapGet_mapSet_ne {β : Type} (m : GoMap β) (k k2 : String) (v : β) (hk : k2 ≠ k) :
    mapGet (mapSet m k2 v) k = mapGet m k := by
  induction m with
  | nil => simp [mapSet, mapGet, hk]
  | cons kv m ih =>
    obtain ⟨k1, v1⟩ := kv
    by_cases h : k1 = k2
    · subst h; simp [mapSet, mapGet, hk]
    · by_cases h2 : k1 = k
      · subst h2; simp [mapSet, mapGet, h]
      · simp [mapSet, mapGet, h, h2, ih]

theorem mapGet_eq_none_of_not_mem {β : Type} (m : GoMap β) (k : String)
    (h : k ∉ m.map Prod.fst) : mapGet m k = none := by
  induction m with
  | nil => rfl
  | cons kv m ih =>
    obtain ⟨k1, v1⟩ := kv
    simp only [List.map_cons, List.mem_cons, not_or] at h
    have h1 : k1 ≠ k := fun e => h.1 e.symm
    simp [mapGet, h1, ih h.2]

theorem toURLValues_loop (p : GoMap String) (hp : (p.map Prod.fst).Nodup)
    (acc : GoMap (List String)) (k : String) :
    mapGet (p.foldl (fun values kv =>
        if kv.2 ≠ "" then mapSet values kv.1 [kv.2] else values) acc) k =
      match mapGet p k with
      | some v => if v = "" then mapGet acc k else some [v]
      | none => mapGet acc k := by
  induction p generalizing acc with
  | nil => rfl
  | cons kv p ih =>
    obtain ⟨k1, v1⟩ := kv
    simp only [List.map_cons, List.nodup_cons] at hp
    rw [List.foldl_cons, ih hp.2]
    by_cases h : k1 = k
    · subst h
      rw [mapGet_eq_none_of_not_mem p k1 hp.1]
      by_cases hv : v1 = ""
      · simp [mapGet, hv]
      · simp [mapGet, hv, mapGet_mapSet_same]
    · have hacc : mapGet (if v1 ≠ "" then mapSet acc k1 [v1] else acc) k = mapGet acc k := by
        split_ifs
        · exact mapGet_mapSet_ne acc k k1 [v1] h
        · rfl
      simp only [mapGet, h, if_false, hacc]

/-- C10: for every non-nil parameter map `p` (an association list with pairwise
distinct keys) and every key `k`, `toURLValues p` is a non-nil map that holds the
one-element list `[p[k]]` under `k` when `p[k]` is a non-empty string and holds
nothing under `k` when `p[k]` is empty or `k` is absent from `p`. -/
theorem toURLValues_lookup (p : GoMap String) (hp : (p.map Prod.fst).Nodup) :
    ∃ values, toURLValues (some p) = some values ∧
      ∀ k, mapGet values k =
        match mapGet p k with
        | some v => if v = "" then none else some [v]
        | none => none := by
  refine ⟨_, rfl, fun k => ?_⟩
  rw [toURLValues_loop p hp [] k]
  rfl

/-- C10 at the parameters of the test suite: `status` and `severity` are kept,
the empty-valued `empty` is dropped. -/
theorem toURLValues_lookup_witness :
    ∃ values,
      toURLValues (some [("status", "open"), ("severity", "error"), ("empty", "")])
        = some values ∧
      ∀ k, mapGet values k =
        match mapGet [("status", "open"), ("severity", "error"), ("empty", "")] k with
        | some v => if v = "" then none else some [v]
        | none => none :=
  toURLValues_lookup [("status", "open"), ("severity", "error"), ("empty", "")] (by decide)


/-! ## Building requests -/

theorem newRequest_ok {T σ : Type} (env : Env T σ) (c : Client) (method path : String)
    (params : Option (GoMap (List String))) (req : Request)
    (h : c.newRequest env method path params = .ok req) :
    req = { Method := method,
            URL := .built (c.BaseURL ++ path)
              (if (mapGet (params.getD []) "per_page").isNone && decide (c.PerPage > 0) then
                mapSet (params.getD []) "per_page" [fmtD c.PerPage]
              else params.getD []),
            Header := [("Authorization", ["token " ++ c.Token]),
              ("Content-Type", ["application/json"]), ("Accept", ["application/json"])] } := by
  unfold Client.newRequest at h
  split at h
  · cases h
  · dsimp only at h
    split at h
    · cases h
    · simp only [Except.ok.injEq] at h
      rw [← h]
      cases params <;> rfl

/-- C11: for a client with `PerPage = n > 0`, the request built by `newRequest`
has the query `per_page = n` in decimal when the caller's parameters have no
`per_page` key, keeps the caller's `per_page` value when they have one, and
carries every other caller-supplied parameter unchanged. -/
theorem newRequest_perPage {T σ : Type} (env : Env T σ) (c : Client) (method path : String)
    (params : Option (GoMap (List String))) (req : Request)
    (hpp : c.PerPage > 0)
    (h : c.newRequest env method path params = .ok req) :
    ∃ q, req.URL = .built (c.BaseURL ++ path) q ∧
      (mapGet (params.getD []) "per_page" = none →
        mapGet q "per_page" = some [fmtD c.PerPage] ∧
        headerGet q "per_page" = fmtD c.PerPage) ∧
      (∀ v, mapGet (params.getD []) "per_page" = some v → mapGet q "per_page" = some v) ∧
      ∀ k, k ≠ "per_page" → mapGet q k = mapGet (params.getD []) k := by
  have hreq := newRequest_ok env c method path params req h
  refine ⟨_, by rw [hreq], ?_, ?_, ?_⟩
  · intro hnone
    simp only [hnone, Option.isNone_none, hpp, decide_True, Bool.and_self, if_true,
      mapGet_mapSet_same, headerGet, true_and]
  · intro v hv
    simp [hv]
  · intro k hk
    split_ifs
    · exact mapGet_mapSet_ne _ _ _ _ (fun e => hk e.symm)
    · rfl

/-- C11 at the clients of the test suite: with default 30 and the parameter
`status=open` the query is `status=open&per_page=30`; with default 30 and the
parameter `per_page=50` the query keeps `per_page=50`. -/
theorem newRequest_perPage_witness :
    (∃ q, ReqURL.built "https://api.bugsnag.com/projects/123/errors"
          [("status", ["open"]), ("per_page", ["30"])]
        = .built "https://api.bugsnag.com/projects/123/errors" q ∧
      (mapGet [("status", ["open"])] "per_page" = none →
        mapGet q "per_page" = some ["30"] ∧ headerGet q "per_page" = "30") ∧
      (∀ v, mapGet [("status", ["open"])] "per_page" = some v → mapGet q "per_page" = some v) ∧
      ∀ k, k ≠ "per_page" → mapGet q k = mapGet [("status", ["open"])] k) ∧
    (∃ q, ReqURL.built "https://api.test.com/test" [("per_page", ["50"])]
        = .built "https://api.test.com/test" q ∧
      (mapGet [("per_page", ["50"])] "per_page" = none →
        mapGet q "per_page" = some ["30"] ∧ headerGet q "per_page" = "30") ∧
      (∀ v, mapGet [("per_page", ["50"])] "per_page" = some v → mapGet q "per_page" = some v) ∧
      ∀ k, k ≠ "per_page" → mapGet q k = mapGet [("per_page", ["50"])] k) :=
  ⟨newRequest_perPage demoEnv ⟨"https://api.bugsnag.com", "test-token", 30⟩ "GET"
    "/projects/123/errors" (some [("status", ["open"])])
    (Request.mk "GET" (.built "https://api.bugsnag.com/projects/123/errors"
        [("status", ["open"]), ("per_page", ["30"])])
      [("Authorization", ["token test-token"]), ("Content-Type", ["application/json"]),
        ("Accept", ["application/json"])] none) (by decide) rfl,
   newRequest_perPage demoEnv ⟨"https://api.test.com", "tok", 30⟩ "GET"
    "/test" (some [("per_page", ["50"])])
    (Request.mk "GET" (.built "https://api.test.com/test" [("per_page", ["50"])])
      [("Authorization", ["token tok"]), ("Content-Type", ["application/json"]),
        ("Accept", ["application/json"])] none) (by decide) rfl⟩
/-! ## Error responses -/

/-- The `*APIError` both `do` and `fetchPage` build from a response with status
at least 400 (`client.go` 95-108, `pagination.go` 35-48). -/
theorem fetchPage_error_status {T σ : Type} (env : Env T σ) (c : Client) (s s1 : σ)
    (req : Request) (resp : Response) (hdo : env.Do s req = (.ok resp, s1))
    (hst : resp.StatusCode ≥ 400) :
    fetchPage env c s req =
      (.error (.api
        (match env.unmarshalErrors resp.Body with
         | some (first :: more) =>
           { StatusCode := resp.StatusCode,
             Message := (mapGet first "message").getD "",
             Errors := first :: more }
         | _ => { StatusCode := resp.StatusCode, Message := resp.Body, Errors := [] })), s1) := by
  unfold fetchPage
  rw [hdo]
  simp only [hst, if_true]
  split
  · rename_i first more h
    cases hm : mapGet first "message" <;> simp
  · rfl

theorem do_error_status {T σ α : Type} (env : Env T σ) (c : Client) (s s1 : σ)
    (req : Request) (v : Option (String → Except GoError α)) (resp : Response)
    (hdo : env.Do s req = (.ok resp, s1)) (hst : resp.StatusCode ≥ 400) :
    c.do_ env s req v =
      ((some resp, none, some (.api
        (match env.unmarshalErrors resp.Body with
         | some (first :: more) =>
           { StatusCode := resp.StatusCode,
             Message := (mapGet first "message").getD "",
             Errors := first :: more }
         | _ => { StatusCode := resp.StatusCode, Message := resp.Body, Errors := [] }))),
        s1) := by
  unfold Client.do_
  rw [hdo]
  simp only [hst, if_true]
  split
  · rename_i first more h
    cases hm : mapGet first "message" <;> simp
  · rfl

theorem fetchPage_success_status {T σ : Type} (env : Env T σ) (c : Client) (s s1 : σ)
    (req : Request) (resp : Response) (hdo : env.Do s req = (.ok resp, s1))
    (hst : resp.StatusCode < 400) :
    fetchPage env c s req =
      (match resp.ReadErr with
       | some err => (.error (.wrapError "reading response: " err), s1)
       | none =>
         match env.unmarshalItems resp.Body with
         | .error err => (.error (.wrapError "decoding response: " err), s1)
         | .ok items =>
           (.ok { Items := items,
                  NextURL := parseLinkHeader (headerGet resp.Header "Link"),
                  HasMore := parseLinkHeader (headerGet resp.Header "Link") != "" }, s1)) := by
  have hn : ¬ resp.StatusCode ≥ 400 := by omega
  unfold fetchPage
  rw [hdo]
  simp only [hn, if_false]

theorem do_success_status {T σ α : Type} (env : Env T σ) (c : Client) (s s1 : σ)
    (req : Request) (v : Option (String → Except GoError α)) (resp : Response)
    (hdo : env.Do s req = (.ok resp, s1)) (hst : resp.StatusCode < 400) :
    c.do_ env s req v =
      (match v with
       | none => ((some resp, none, none), s1)
       | some unmarshal =>
         match resp.ReadErr with
         | some err => ((some resp, none, some (.wrapError "reading response: " err)), s1)
         | none =>
           match unmarshal resp.Body with
           | .error err => ((some resp, none, some (.wrapError "decoding response: " err)), s1)
           | .ok a => ((some resp, some a, none), s1)) := by
  have hn : ¬ resp.StatusCode ≥ 400 := by omega
  unfold Client.do_
  rw [hdo]
  simp only [hn, if_false]

/-- C14: for a response with status at least 400 whose body parses as a non-empty
errors list whose first entry has a `message` key, both `do` and `fetchPage`
return a `*APIError` with the response status, that first message as `Message`
and the full parsed list as `Errors`. -/
theorem apiError_first_message {T σ α : Type} (env : Env T σ) (c : Client) (s s1 : σ)
    (req : Request) (v : Option (String → Except GoError α)) (resp : Response)
    (first : GoMap String) (more : List (GoMap String)) (msg : String)
    (hdo : env.Do s req = (.ok resp, s1)) (hst : resp.StatusCode ≥ 400)
    (hparse : env.unmarshalErrors resp.Body = some (first :: more))
    (hmsg : mapGet first "message" = some msg) :
    fetchPage env c s req =
      (.error (.api { StatusCode := resp.StatusCode, Message := msg,
                      Errors := first :: more }), s1) ∧
    c.do_ env s req v =
      ((some resp, none, some (.api { StatusCode := resp.StatusCode, Message := msg,
                                      Errors := first :: more })), s1) := by
  rw [fetchPage_error_status env c s s1 req resp hdo hst,
    do_error_status env c s s1 req v resp hdo hst, hparse]
  simp [hmsg]

/-- C14 at the response 403 with body `{"errors":[{"message":"Forbidden"}]}`. -/
theorem apiError_first_message_witness :
    fetchPage (scriptEnv decodeNats) ⟨"https://api.bugsnag.com", "tok", 30⟩
      [⟨403, [], "\x7b\"errors\":[\x7b\"message\":\"Forbidden\"\x7d]\x7d", none⟩]
      (nextPageRequest ⟨"https://api.bugsnag.com", "tok", 30⟩ "http://h/test") =
      (.error (.api { StatusCode := 403, Message := "Forbidden",
                      Errors := [[("message", "Forbidden")]] }), []) ∧
    Client.do_ (scriptEnv decodeNats) ⟨"https://api.bugsnag.com", "tok", 30⟩
      [⟨403, [], "\x7b\"errors\":[\x7b\"message\":\"Forbidden\"\x7d]\x7d", none⟩]
      (nextPageRequest ⟨"https://api.bugsnag.com", "tok", 30⟩ "http://h/test")
      (none : Option (String → Except GoError Nat)) =
      ((some ⟨403, [], "\x7b\"errors\":[\x7b\"message\":\"Forbidden\"\x7d]\x7d", none⟩, none,
        some (.api { StatusCode := 403, Message := "Forbidden",
                     Errors := [[("message", "Forbidden")]] })), []) :=
  apiError_first_message (scriptEnv decodeNats) ⟨"https://api.bugsnag.com", "tok", 30⟩
    [⟨403, [], "\x7b\"errors\":[\x7b\"message\":\"Forbidden\"\x7d]\x7d", none⟩] []
    (nextPageRequest ⟨"https://api.bugsnag.com", "tok", 30⟩ "http://h/test") none
    ⟨403, [], "\x7b\"errors\":[\x7b\"message\":\"Forbidden\"\x7d]\x7d", none⟩
    [("message", "Forbidden")] [] "Forbidden" rfl (by decide) (by decide) (by decide)

/-- C15: for a response with status at least 400 whose body does not parse as
the errors shape, or parses with an empty or missing errors list, both `do` and
`fetchPage` return a `*APIError` with the response status, the raw body text as
`Message` and an empty `Errors` list. -/
theorem apiError_raw_body {T σ α : Type} (env : Env T σ) (c : Client) (s s1 : σ)
    (req : Request) (v : Option (String → Except GoError α)) (resp : Response)
    (hdo : env.Do s req = (.ok resp, s1)) (hst : resp.StatusCode ≥ 400)
    (hparse : env.unmarshalErrors resp.Body = none ∨ env.unmarshalErrors resp.Body = some []) :
    fetchPage env c s req =
      (.error (.api { StatusCode := resp.StatusCode, Message := resp.Body,
                      Errors := [] }), s1) ∧
    c.do_ env s req v =
      ((some resp, none, some (.api { StatusCode := resp.StatusCode, Message := resp.Body,
                                      Errors := [] })), s1) := by
  rw [fetchPage_error_status env c s s1 req resp hdo hst,
    do_error_status env c s s1 req v resp hdo hst]
  rcases hparse with h | h <;> simp [h]

/-- C15 at the response 500 with body `Internal Server Error`. -/
theorem apiError_raw_body_witness :
    fetchPage (scriptEnv decodeNats) ⟨"https://api.bugsnag.com", "tok", 30⟩
      [⟨500, [], "Internal Server Error", none⟩]
      (nextPageRequest ⟨"https://api.bugsnag.com", "tok", 30⟩ "http://h/test") =
      (.error (.api { StatusCode := 500, Message := "Internal Server Error",
                      Errors := [] }), []) ∧
    Client.do_ (scriptEnv decodeNats) ⟨"https://api.bugsnag.com", "tok", 30⟩
      [⟨500, [], "Internal Server Error", none⟩]
      (nextPageRequest ⟨"https://api.bugsnag.com", "tok", 30⟩ "http://h/test")
      (none : Option (String → Except GoError Nat)) =
      ((some ⟨500, [], "Internal Server Error", none⟩, none,
        some (.api { StatusCode := 500, Message := "Internal Server Error",
                     Errors := [] })), []) :=
  apiError_raw_body (scriptEnv decodeNats) ⟨"https://api.bugsnag.com", "tok", 30⟩
    [⟨500, [], "Internal Server Error", none⟩] []
    (nextPageRequest ⟨"https://api.bugsnag.com", "tok", 30⟩ "http://h/test") none
    ⟨500, [], "Internal Server Error", none⟩ rfl (by decide) (Or.inl (by decide))
/-- C16: once the transport has delivered a response, `do` and `fetchPage` return
a `*APIError` exactly when the status is at least 400, its `StatusCode` is the
response status, and with a status below 400 and a nil target `do` returns no
error. -/
theorem apiError_iff_status {T σ α : Type} (env : Env T σ) (c : Client) (s s1 : σ)
    (req : Request) (v : Option (String → Except GoError α)) (resp : Response)
    (hdo : env.Do s req = (.ok resp, s1)) :
    ((∃ e, (fetchPage env c s req).1 = .error (.api e)) ↔ resp.StatusCode ≥ 400) ∧
    (∀ e, (fetchPage env c s req).1 = .error (.api e) → e.StatusCode = resp.StatusCode) ∧
    ((∃ e, (c.do_ env s req v).1.2.2 = some (.api e)) ↔ resp.StatusCode ≥ 400) ∧
    (∀ e, (c.do_ env s req v).1.2.2 = some (.api e) → e.StatusCode = resp.StatusCode) ∧
    (resp.StatusCode < 400 →
      c.do_ env s req (none : Option (String → Except GoError α)) =
        ((some resp, none, none), s1)) := by
  by_cases hst : resp.StatusCode ≥ 400
  · have hf := fetchPage_error_status env c s s1 req resp hdo hst
    have hd := do_error_status env c s s1 req v resp hdo hst
    rw [hf, hd]
    refine ⟨⟨fun _ => hst, fun _ => ⟨_, rfl⟩⟩, ?_, ⟨fun _ => hst, fun _ => ⟨_, rfl⟩⟩, ?_, ?_⟩
    · intro e he
      simp only [Except.error.injEq, GoError.api.injEq] at he
      rw [← he]
      split <;> rfl
    · intro e he
      simp only [Option.some.injEq, GoError.api.injEq] at he
      rw [← he]
      split <;> rfl
    · intro h; omega
  · have hlt : resp.StatusCode < 400 := by omega
    have hf := fetchPage_success_status env c s s1 req resp hdo hlt
    have hd := do_success_status env c s s1 req v resp hdo hlt
    have hfn : ∀ e, (fetchPage env c s req).1 ≠ .error (.api e) := by
      intro e
      rw [hf]
      split
      · simp
      · split <;> simp
    have hdn : ∀ e, (c.do_ env s req v).1.2.2 ≠ some (.api e) := by
      intro e
      rw [hd]
      split
      · simp
      · split
        · simp
        · split <;> simp
    refine ⟨⟨fun ⟨e, he⟩ => absurd he (hfn e), fun h => absurd h hst⟩,
      fun e he => absurd he (hfn e),
      ⟨fun ⟨e, he⟩ => absurd he (hdn e), fun h => absurd h hst⟩,
      fun e he => absurd he (hdn e), ?_⟩
    intro _
    rw [do_success_status env c s s1 req none resp hdo hlt]

/-- C16 at the statuses 400 and 399 with the body `oops`: the first gives a
`*APIError` with status 400, the second gives no `*APIError`, and `do` with a nil
target returns no error for it. -/
theorem apiError_iff_status_witness :
    ((∃ e, (fetchPage (scriptEnv decodeNats) ⟨"https://api.bugsnag.com", "tok", 30⟩
        [⟨400, [], "oops", none⟩]
        (nextPageRequest ⟨"https://api.bugsnag.com", "tok", 30⟩ "http://h/test")).1
          = .error (.api e)) ↔ (400 : Int) ≥ 400) ∧
    ((∃ e, (fetchPage (scriptEnv decodeNats) ⟨"https://api.bugsnag.com", "tok", 30⟩
        [⟨399, [], "oops", none⟩]
        (nextPageRequest ⟨"https://api.bugsnag.com", "tok", 30⟩ "http://h/test")).1
          = .error (.api e)) ↔ (399 : Int) ≥ 400) ∧
    Client.do_ (scriptEnv decodeNats) ⟨"https://api.bugsnag.com", "tok", 30⟩
        [⟨399, [], "oops", none⟩]
        (nextPageRequest ⟨"https://api.bugsnag.com", "tok", 30⟩ "http://h/test")
        (none : Option (String → Except GoError Nat)) =
      ((some ⟨399, [], "oops", none⟩, none, none), []) :=
  ⟨(apiError_iff_status (scriptEnv decodeNats) ⟨"https://api.bugsnag.com", "tok", 30⟩
      [⟨400, [], "oops", none⟩] []
      (nextPageRequest ⟨"https://api.bugsnag.com", "tok", 30⟩ "http://h/test")
      (none : Option (String → Except GoError Nat)) ⟨400, [], "oops", none⟩ rfl).1,
   (apiError_iff_status (scriptEnv decodeNats) ⟨"https://api.bugsnag.com", "tok", 30⟩
      [⟨399, [], "oops", none⟩] []
      (nextPageRequest ⟨"https://api.bugsnag.com", "tok", 30⟩ "http://h/test")
      (none : Option (String → Except GoError Nat)) ⟨399, [], "oops", none⟩ rfl).1,
   (apiError_iff_status (scriptEnv decodeNats) ⟨"https://api.bugsnag.com", "tok", 30⟩
      [⟨399, [], "oops", none⟩] []
      (nextPageRequest ⟨"https://api.bugsnag.com", "tok", 30⟩ "http://h/test")
      (none : Option (String → Except GoError Nat)) ⟨399, [], "oops", none⟩ rfl).2.2.2.2
      (by decide)⟩

theorem containsL_decoding (needle m : List Char)
    (h : needle = "is required".data ∨ needle = "network error".data ∨
      needle = "API error".data) :
    containsL needle ("decoding response: ".data ++ m) = containsL needle m := by
  have e : "decoding response: ".data = ['d', 'e', 'c', 'o', 'd', 'i', 'n', 'g', ' ', 'r', 'e',
    's', 'p', 'o', 'n', 's', 'e', ':', ' '] := rfl
  rw [e]
  rcases h with h | h | h <;> subst h
  · have e2 : "is required".data = ['i', 's', ' ', 'r', 'e', 'q', 'u', 'i', 'r', 'e', 'd'] := rfl
    rw [e2]
    simp [containsL, List.isPrefixOf]
  · have e2 : "network error".data =
        ['n', 'e', 't', 'w', 'o', 'r', 'k', ' ', 'e', 'r', 'r', 'o', 'r'] := rfl
    rw [e2]
    simp [containsL, List.isPrefixOf]
  · have e2 : "API error".data = ['A', 'P', 'I', ' ', 'e', 'r', 'r', 'o', 'r'] := rfl
    rw [e2]
    simp [containsL, List.isPrefixOf]
theorem classifyError_decoding (perr : GoError)
    (h1 : stringsContains perr.Error "is required" = false)
    (h2 : stringsContains perr.Error "network error" = false)
    (h3 : stringsContains perr.Error "API error" = false) :
    classifyError (some (.wrapError "decoding response: " perr)) = ExitGeneral := by
  have key : ∀ needle : String,
      (needle.data = "is required".data ∨ needle.data = "network error".data ∨
        needle.data = "API error".data) →
      stringsContains (GoError.wrapError "decoding response: " perr).Error needle =
        stringsContains perr.Error needle := by
    intro needle hn
    simp only [stringsContains, GoError.Error, String.data_append]
    exact containsL_decoding _ _ hn
  rw [classifyError_some]
  rw [key "is required" (Or.inl rfl), key "network error" (Or.inr (Or.inl rfl)),
    key "API error" (Or.inr (Or.inr rfl)), h1, h2, h3]
  simp [GoError.asAPIError]

/-- C17: for a response with status below 400 whose body fails to decode, `do`
with a non-nil target and `fetchPage` return an error that is not a `*APIError`,
whose message is "decoding response: " followed by the parse failure's message,
and which `classifyError` maps to GENERAL (1), not API (3), whenever the parse
failure's message contains none of "is required", "network error", "API error". -/
theorem decode_error_general {T σ α : Type} (env : Env T σ) (c : Client) (s s1 : σ)
    (req : Request) (unmarshal : String → Except GoError α) (resp : Response)
    (perr perr2 : GoError)
    (hdo : env.Do s req = (.ok resp, s1)) (hst : resp.StatusCode < 400)
    (hread : resp.ReadErr = none)
    (hitems : env.unmarshalItems resp.Body = .error perr)
    (htarget : unmarshal resp.Body = .error perr2) :
    fetchPage env c s req = (.error (.wrapError "decoding response: " perr), s1) ∧
    c.do_ env s req (some unmarshal) =
      ((some resp, none, some (.wrapError "decoding response: " perr2)), s1) ∧
    ∀ p : GoError,
      (GoError.wrapError "decoding response: " p).asAPIError = none ∧
      (GoError.wrapError "decoding response: " p).Error = "decoding response: " ++ p.Error ∧
      (stringsContains p.Error "is required" = false →
        stringsContains p.Error "network error" = false →
        stringsContains p.Error "API error" = false →
        classifyError (some (.wrapError "decoding response: " p)) = ExitGeneral ∧
        classifyError (some (.wrapError "decoding response: " p)) ≠ ExitAPI) := by
  refine ⟨?_, ?_, fun p => ⟨rfl, rfl, ?_⟩⟩
  · rw [fetchPage_success_status env c s s1 req resp hdo hst, hread, hitems]
  · rw [do_success_status env c s s1 req (some unmarshal) resp hdo hst]
    simp only [hread, htarget]
  · intro h1 h2 h3
    rw [classifyError_decoding p h1 h2 h3]
    exact ⟨rfl, by decide⟩

/-- C17 at the response 200 with body `not json array`: the error of `fetchPage`
and of `do` reads "decoding response: invalid character" and is classified as
GENERAL (1). -/
theorem decode_error_general_witness :
    fetchPage (scriptEnv decodeNats) ⟨"https://api.bugsnag.com", "tok", 30⟩
        [⟨200, [], "not json array", none⟩]
        (nextPageRequest ⟨"https://api.bugsnag.com", "tok", 30⟩ "http://h/test") =
      (.error (.wrapError "decoding response: " (.errorString "invalid character")), []) ∧
    (GoError.wrapError "decoding response: " (.errorString "invalid character")).Error =
      "decoding response: invalid character" ∧
    classifyError (some (.wrapError "decoding response: " (.errorString "invalid character")))
      = ExitGeneral :=
  have h := decode_error_general (scriptEnv decodeNats) ⟨"https://api.bugsnag.com", "tok", 30⟩
      [⟨200, [], "not json array", none⟩] []
      (nextPageRequest ⟨"https://api.bugsnag.com", "tok", 30⟩ "http://h/test")
      decodeNats ⟨200, [], "not json array", none⟩
      (.errorString "invalid character") (.errorString "invalid character")
      rfl (by decide) rfl rfl rfl
  ⟨h.1, (h.2.2 (.errorString "invalid character")).2.1,
    ((h.2.2 (.errorString "invalid character")).2.2 (by decide) (by decide) (by decide)).1⟩
/-! ## The page aggregator -/

theorem fetchPage_recording {T σ : Type} (env : Env T σ) (c : Client) (s : σ)
    (log : List Exchange) (req : Request) :
    fetchPage (recording env) c (s, log) req =
      ((fetchPage env c s req).1,
        ((fetchPage env c s req).2, log ++ [(req, (env.Do s req).1)])) := by
  unfold fetchPage
  simp only [recording]
  rcases hdo : env.Do s req with ⟨res, s1⟩
  cases res with
  | error err => rfl
  | ok resp =>
    dsimp only
    split_ifs
    · split <;> rfl
    · split
      · rfl
      · split <;> rfl

theorem fetchPage_snd {T σ : Type} (env : Env T σ) (c : Client) (s : σ) (req : Request) :
    (fetchPage env c s req).2 = (env.Do s req).2 := by
  unfold fetchPage
  rcases hdo : env.Do s req with ⟨res, s1⟩
  cases res with
  | error err => rfl
  | ok resp =>
    dsimp only
    split_ifs
    · split <;> rfl
    · split
      · rfl
      · split <;> rfl

theorem collectLoop_log {T σ : Type} (env : Env T σ) (c : Client) (fuel : Nat) (s : σ)
    (log : List Exchange) (req : Request) (all : List T) :
    ∃ ext, (collectLoop (recording env) c fuel (s, log) req all).2.2 = log ++ ext ∧
      chainFrom c req ext := by
  induction fuel generalizing s log req all with
  | zero => exact ⟨[], by simp [collectLoop], trivial⟩
  | succ fuel ih =>
    have one : chainFrom c req [(req, (env.Do s req).1)] := ⟨rfl, Or.inl rfl⟩
    unfold collectLoop
    rw [fetchPage_recording]
    rcases hf : fetchPage env c s req with ⟨res, s1⟩
    cases res with
    | error err => exact ⟨[(req, (env.Do s req).1)], rfl, one⟩
    | ok result =>
      dsimp only
      split_ifs with hmore
      · exact ⟨[(req, (env.Do s req).1)], rfl, one⟩
      · split
        · exact ⟨[(req, (env.Do s req).1)], rfl, one⟩
        · obtain ⟨ext, hext, hchain⟩ := ih s1 (log ++ [(req, (env.Do s req).1)])
            (nextPageRequest c result.NextURL) (all ++ result.Items)
          obtain ⟨resp, hdo, _, _, hnext, _⟩ := fetchPage_ok env c s s1 req result hf
          refine ⟨(req, (env.Do s req).1) :: ext, ?_, rfl, Or.inr ⟨resp, ?_, ?_⟩⟩
          · simp only [recording] at hext ⊢
            rw [hext]
            simp
          · rw [hdo]
          · rw [← hnext]
            exact hchain

theorem chainFrom_next (c : Client) (req : Request) (ext : List Exchange)
    (h : chainFrom c req ext) (k : Nat) (e1 e2 : Exchange)
    (h1 : ext[k]? = some e1) (h2 : ext[k + 1]? = some e2) :
    ∃ resp, e1.2 = .ok resp ∧
      e2.1 = nextPageRequest c (parseLinkHeader (headerGet resp.Header "Link")) := by
  induction k generalizing req ext with
  | zero =>
    match ext, h with
    | [a], _ => simp at h2
    | a :: b :: rest, h =>
      simp only [List.getElem?_cons_zero, Option.some.injEq, List.getElem?_cons_succ] at h1 h2
      subst h1; subst h2
      rcases h.2 with h3 | ⟨resp, hres, hch⟩
      · cases h3
      · exact ⟨resp, hres, hch.1⟩
  | succ k ih =>
    match ext, h with
    | [a], _ => simp at h2
    | a :: b :: rest, h =>
      rw [List.getElem?_cons_succ] at h1 h2
      rcases h.2 with h3 | ⟨resp, _, hch⟩
      · cases h3
      · exact ih _ _ hch h1 h2

theorem CollectAllPages_log {T σ : Type} (env : Env T σ) (c : Client) (fuel : Nat) (s : σ)
    (path : String) (params : Option (GoMap String)) :
    (∀ e, c.newRequest env "GET" path (toURLValues params) = .error e →
      (CollectAllPages (recording env) c fuel (s, []) path params).2.2 = []) ∧
    (∀ req, c.newRequest env "GET" path (toURLValues params) = .ok req →
      chainFrom c req (CollectAllPages (recording env) c fuel (s, []) path params).2.2) := by
  have hnr : Client.newRequest (recording env) c "GET" path (toURLValues params) =
      c.newRequest env "GET" path (toURLValues params) := rfl
  constructor
  · intro e he
    unfold CollectAllPages
    rw [hnr, he]
  · intro req hreq
    unfold CollectAllPages
    rw [hnr, hreq]
    obtain ⟨ext, hext, hch⟩ := collectLoop_log env c fuel s [] req ([] : List T)
    dsimp only
    rw [hext]
    exact hch

/-- C13: in `CollectAllPages`, every request after the first is a GET whose URL is
exactly the next URL `parseLinkHeader` extracts from the `Link` header of the
response just before it, passed as is (no query parameter is added), and its
headers are `Authorization` and `Accept` only. The log is the list of exchanges in
the order they happen, after any number of loop iterations. -/
theorem CollectAllPages_followUp {T σ : Type} (env : Env T σ) (c : Client) (fuel : Nat)
    (s : σ) (path : String) (params : Option (GoMap String)) (k : Nat) (e1 e2 : Exchange)
    (h1 : (CollectAllPages (recording env) c fuel (s, []) path params).2.2[k]? = some e1)
    (h2 : (CollectAllPages (recording env) c fuel (s, []) path params).2.2[k + 1]? = some e2) :
    ∃ resp, e1.2 = .ok resp ∧
      e2.1 = { Method := "GET",
               URL := .plain (parseLinkHeader (headerGet resp.Header "Link")),
               Header := [("Authorization", ["token " ++ c.Token]),
                 ("Accept", ["application/json"])],
               Body := none } := by
  have hlog := CollectAllPages_log env c fuel s path params
  cases hreq : c.newRequest env "GET" path (toURLValues params) with
  | error e =>
    rw [hlog.1 e hreq] at h1
    simp at h1
  | ok req => exact chainFrom_next c req _ (hlog.2 req hreq) k e1 e2 h1 h2
/-- C13 at a server with two pages, called with the filter `status=open` and
default page size 30: the first request carries `status=open&per_page=30`, the
second is the GET of the next URL `http://h/p2` as is. -/
theorem CollectAllPages_followUp_witness :
    (CollectAllPages (recording (scriptEnv decodeNats)) ⟨"https://api.bugsnag.com", "tok", 30⟩
      10 ([pageResp "[1,2]" "<http://h/p2>; rel=\"next\"", pageResp "[3]" ""], [])
      "/test" (some [("status", "open")])).2.2.map (fun e => e.1.URL) =
      [.built "https://api.bugsnag.com/test" [("status", ["open"]), ("per_page", ["30"])],
       .plain "http://h/p2"] ∧
    ∃ resp, (Except.ok (pageResp "[1,2]" "<http://h/p2>; rel=\"next\"") :
        Except GoError Response) = .ok resp ∧
      nextPageRequest ⟨"https://api.bugsnag.com", "tok", 30⟩ "http://h/p2" =
        { Method := "GET",
          URL := .plain (parseLinkHeader (headerGet resp.Header "Link")),
          Header := [("Authorization", ["token " ++ "tok"]), ("Accept", ["application/json"])],
          Body := none } :=
  ⟨by decide,
   CollectAllPages_followUp (scriptEnv decodeNats) ⟨"https://api.bugsnag.com", "tok", 30⟩
    10 [pageResp "[1,2]" "<http://h/p2>; rel=\"next\"", pageResp "[3]" ""]
    "/test" (some [("status", "open")]) 0
    (⟨"GET", .built "https://api.bugsnag.com/test" [("status", ["open"]), ("per_page", ["30"])],
       [("Authorization", ["token tok"]), ("Content-Type", ["application/json"]),
         ("Accept", ["application/json"])], none⟩,
      .ok (pageResp "[1,2]" "<http://h/p2>; rel=\"next\""))
    (nextPageRequest ⟨"https://api.bugsnag.com", "tok", 30⟩ "http://h/p2", .ok (pageResp "[3]" ""))
    rfl rfl⟩

theorem nextPageRequest_headers (c : Client) (u : String) :
    headerGet (nextPageRequest c u).Header "Authorization" = "token " ++ c.Token ∧
    headerGet (nextPageRequest c u).Header "Accept" = "application/json" ∧
    headerGet (nextPageRequest c u).Header "Content-Type" = "" := by
  refine ⟨?_, ?_, ?_⟩ <;>
    simp [nextPageRequest, headerSet, mapSet, headerGet, mapGet]

/-- C12 as stated fails: the follow-up page request of `CollectAllPages` carries
no `Content-Type` header. For a server with two pages the `Content-Type` values
of the two requests are "application/json" and "" (absent). -/
theorem followUp_contentType_counterexample :
    (CollectAllPages (recording (scriptEnv decodeNats)) ⟨"https://api.bugsnag.com", "tok", 30⟩
      10 ([pageResp "[1,2]" "<http://h/p2>; rel=\"next\"", pageResp "[3]" ""], [])
      "/test" none).2.2.map (fun e => headerGet e.1.Header "Content-Type") =
      ["application/json", ""] ∧
    (CollectAllPages (recording (scriptEnv decodeNats)) ⟨"https://api.bugsnag.com", "tok", 30⟩
      10 ([pageResp "[1,2]" "<http://h/p2>; rel=\"next\"", pageResp "[3]" ""], [])
      "/test" none).2.2.map (fun e => mapGet e.1.Header "Content-Type") =
      [some ["application/json"], none] := by
  decide

/-- C12, amended: every request built by `newRequest` or `newRequestWithBody`
carries `Authorization: token <token>`, `Accept: application/json` and
`Content-Type: application/json`; every follow-up page request sent by
`CollectAllPages` carries `Authorization: token <token>` and
`Accept: application/json`. -/
theorem request_headers {T σ : Type} (env : Env T σ) (c : Client) :
    (∀ method path params req, c.newRequest env method path params = .ok req →
      headerGet req.Header "Authorization" = "token " ++ c.Token ∧
      headerGet req.Header "Accept" = "application/json" ∧
      headerGet req.Header "Content-Type" = "application/json") ∧
    (∀ method path body req, c.newRequestWithBody env method path body = .ok req →
      headerGet req.Header "Authorization" = "token " ++ c.Token ∧
      headerGet req.Header "Accept" = "application/json" ∧
      headerGet req.Header "Content-Type" = "application/json") ∧
    (∀ fuel s path params k e,
      (CollectAllPages (recording env) c fuel (s, []) path params).2.2[k + 1]? = some e →
      headerGet e.1.Header "Authorization" = "token " ++ c.Token ∧
      headerGet e.1.Header "Accept" = "application/json") := by
  refine ⟨?_, ?_, ?_⟩
  · intro method path params req h
    rw [newRequest_ok env c method path params req h]
    simp [headerGet, mapGet]
  · intro method path body req h
    unfold Client.newRequestWithBody at h
    split at h
    · cases h
    · split at h
      · cases h
      · simp only [Except.ok.injEq] at h
        rw [← h]
        simp [headerSet, mapSet, headerGet, mapGet]
  · intro fuel s path params k e h
    have hlt : k + 1 < (CollectAllPages (recording env) c fuel (s, []) path params).2.2.length := by
      by_contra hn
      rw [List.getElem?_eq_none (by omega)] at h
      cases h
    have h1 : (CollectAllPages (recording env) c fuel (s, []) path params).2.2[k]? =
        some ((CollectAllPages (recording env) c fuel (s, []) path params).2.2[k]) :=
      List.getElem?_eq_getElem (by omega)
    have hlog := CollectAllPages_log env c fuel s path params
    cases hreq : c.newRequest env "GET" path (toURLValues params) with
    | error err =>
      rw [hlog.1 err hreq] at h
      simp at h
    | ok req =>
      obtain ⟨resp, _, he⟩ := chainFrom_next c req _ (hlog.2 req hreq) k _ e h1 h
      rw [he]
      exact ⟨(nextPageRequest_headers c _).1, (nextPageRequest_headers c _).2.1⟩

/-- C12 at the client of the test suite: the request built by `newRequest` and
the follow-up request of a two-page aggregation. -/
theorem request_headers_witness :
    (headerGet [("Authorization", ["token secret-token-123"]),
        ("Content-Type", ["application/json"]), ("Accept", ["application/json"])]
        "Authorization" = "token " ++ "secret-token-123" ∧
      headerGet [("Authorization", ["token secret-token-123"]),
        ("Content-Type", ["application/json"]), ("Accept", ["application/json"])]
        "Accept" = "application/json" ∧
      headerGet [("Authorization", ["token secret-token-123"]),
        ("Content-Type", ["application/json"]), ("Accept", ["application/json"])]
        "Content-Type" = "application/json") ∧
    (headerGet (nextPageRequest ⟨"https://api.bugsnag.com", "secret-token-123", 30⟩
        "http://h/p2").Header "Authorization" = "token " ++ "secret-token-123" ∧
      headerGet (nextPageRequest ⟨"https://api.bugsnag.com", "secret-token-123", 30⟩
        "http://h/p2").Header "Accept" = "application/json") :=
  ⟨(request_headers demoEnv ⟨"https://api.bugsnag.com", "secret-token-123", 30⟩).1
      "GET" "/user/organizations" none
      ⟨"GET", .built "https://api.bugsnag.com/user/organizations" [("per_page", ["30"])],
        [("Authorization", ["token secret-token-123"]), ("Content-Type", ["application/json"]),
          ("Accept", ["application/json"])], none⟩ rfl,
   (request_headers (scriptEnv decodeNats)
      ⟨"https://api.bugsnag.com", "secret-token-123", 30⟩).2.2
      10 [pageResp "[1,2]" "<http://h/p2>; rel=\"next\"", pageResp "[3]" ""]
      "/user/organizations" none 0
      (nextPageRequest ⟨"https://api.bugsnag.com", "secret-token-123", 30⟩ "http://h/p2",
        .ok (pageResp "[3]" "")) rfl⟩
theorem fetchPage_of_page {T σ : Type} (env : Env T σ) (c : Client) (s s1 : σ)
    (req : Request) (resp : Response) (P : List T) (hdo : env.Do s req = (.ok resp, s1))
    (hpage : carriesPage env resp P) :
    fetchPage env c s req =
      (.ok { Items := P, NextURL := parseLinkHeader (headerGet resp.Header "Link"),
             HasMore := parseLinkHeader (headerGet resp.Header "Link") != "" }, s1) := by
  obtain ⟨hst, hread, hitems⟩ := hpage
  rw [fetchPage_success_status env c s s1 req resp hdo hst, hread, hitems]

theorem collectLoop_answersPages {T σ : Type} (env : Env T σ) (c : Client) (sEnd : σ)
    (pages : List (List T)) (s : σ) (req : Request) (fuel : Nat) (log : List Exchange)
    (all : List T) (hserver : answersPages env c pages s req sEnd)
    (hfuel : pages.length ≤ fuel) :
    ∃ ext, collectLoop (recording env) c fuel (s, log) req all =
        (some (all ++ pages.flatten, none), (sEnd, log ++ ext)) ∧
      ext.length = pages.length := by
  induction pages generalizing s req fuel log all with
  | nil => exact absurd hserver (by simp [answersPages])
  | cons P rest ih =>
    obtain ⟨resp, s1, hdo, hpage, hlast, hmore⟩ := hserver
    cases fuel with
    | zero => simp at hfuel
    | succ fuel =>
      have hf := fetchPage_of_page env c s s1 req resp P hdo hpage
      unfold collectLoop
      rw [fetchPage_recording, hf, hdo]
      dsimp only
      cases rest with
      | nil =>
        obtain ⟨hnone, rfl⟩ := hlast rfl
        refine ⟨[(req, .ok resp)], ?_, rfl⟩
        simp [hnone]
      | cons P2 rest2 =>
        obtain ⟨hnext, hbuild, hrest⟩ := hmore (by simp)
        obtain ⟨ext, hext, hlen⟩ := ih s1
          (nextPageRequest c (parseLinkHeader (headerGet resp.Header "Link"))) fuel
          (log ++ [(req, .ok resp)]) (all ++ P) hrest (by simpa using hfuel)
        refine ⟨(req, .ok resp) :: ext, ?_, by simp [hlen]⟩
        have hb : (recording env).httpNewRequest "GET"
            (.plain (parseLinkHeader (headerGet resp.Header "Link"))) = none := hbuild
        have hb2 : (parseLinkHeader (headerGet resp.Header "Link") != "") = true := by
          simpa using hnext
        simp only [hb2, Bool.not_true, Bool.false_eq_true, if_false, hb, hext]
        simp

/-- C18: for every non-empty sequence of pages and every server that answers the
successive requests with these pages, giving a next link on every page but the
last, `CollectAllPages` ends (any fuel of at least the number of pages suffices),
returns no error and exactly the concatenation of the pages in order, and sends
exactly as many requests as there are pages. -/
theorem CollectAllPages_all_pages {T σ : Type} (env : Env T σ) (c : Client) (s sEnd : σ)
    (path : String) (params : Option (GoMap String)) (req : Request)
    (pages : List (List T)) (fuel : Nat)
    (hreq : c.newRequest env "GET" path (toURLValues params) = .ok req)
    (hserver : answersPages env c pages s req sEnd)
    (hfuel : pages.length ≤ fuel) :
    1 ≤ pages.length ∧
    ∃ log, CollectAllPages (recording env) c fuel (s, []) path params =
        (some (pages.flatten, none), (sEnd, log)) ∧
      log.length = pages.length := by
  constructor
  · cases pages with
    | nil => exact absurd hserver (by simp [answersPages])
    | cons P rest => simp
  · have hnr : Client.newRequest (recording env) c "GET" path (toURLValues params) =
        .ok req := hreq
    obtain ⟨ext, hext, hlen⟩ :=
      collectLoop_answersPages env c sEnd pages s req fuel [] [] hserver hfuel
    refine ⟨ext, ?_, hlen⟩
    unfold CollectAllPages
    rw [hnr]
    simpa using hext

/-- C18 at a server with the three pages `[1,2]`, `[3]`, `[4,5]`: the aggregate is
`[1,2,3,4,5]`, with no error, after exactly three requests (one scripted response
is left unused). -/
theorem CollectAllPages_all_pages_witness :
    1 ≤ [[1, 2], [3], [4, 5]].length ∧
    ∃ log, CollectAllPages (recording (scriptEnv decodeNats))
        ⟨"https://api.bugsnag.com", "tok", 30⟩ 3
        ([pageResp "[1,2]" "<http://h/p2>; rel=\"next\"",
          pageResp "[3]" "<http://h/p3>; rel=\"next\"", pageResp "[4,5]" "",
          pageResp "[1,2]" ""], []) "/test" none =
        (some ([[1, 2], [3], [4, 5]].flatten, none), ([pageResp "[1,2]" ""], log)) ∧
      log.length = [[1, 2], [3], [4, 5]].length :=
  CollectAllPages_all_pages (scriptEnv decodeNats) ⟨"https://api.bugsnag.com", "tok", 30⟩
    [pageResp "[1,2]" "<http://h/p2>; rel=\"next\"",
      pageResp "[3]" "<http://h/p3>; rel=\"next\"", pageResp "[4,5]" "", pageResp "[1,2]" ""]
    [pageResp "[1,2]" ""] "/test" none
    ⟨"GET", .built "https://api.bugsnag.com/test" [("per_page", ["30"])],
      [("Authorization", ["token tok"]), ("Content-Type", ["application/json"]),
        ("Accept", ["application/json"])], none⟩
    [[1, 2], [3], [4, 5]] 3 rfl
    ⟨_, _, rfl, ⟨by decide, rfl, rfl⟩, fun h => absurd h (by decide),
      fun _ => ⟨by decide, rfl,
        ⟨_, _, rfl, ⟨by decide, rfl, rfl⟩, fun h => absurd h (by decide),
          fun _ => ⟨by decide, rfl,
            ⟨_, _, rfl, ⟨by decide, rfl, rfl⟩, fun _ => ⟨by decide, rfl⟩,
              fun h => absurd rfl h⟩⟩⟩⟩⟩
    (by decide)
theorem collectLoop_failsAfter {T σ : Type} (env : Env T σ) (c : Client) (sEnd : σ)
    (e : GoError) (k : Nat) (s : σ) (req : Request) (fuel : Nat) (log : List Exchange)
    (all : List T) (hfail : failsAfter env c k s req e sEnd) (hfuel : k + 1 ≤ fuel) :
    ∃ ext, collectLoop (recording env) c fuel (s, log) req all =
        (some ([], some e), (sEnd, log ++ ext)) ∧
      ext.length = k + 1 := by
  induction k generalizing s req fuel log all with
  | zero =>
    cases fuel with
    | zero => simp at hfuel
    | succ fuel =>
      have hf : fetchPage env c s req = (.error e, sEnd) := hfail
      unfold collectLoop
      rw [fetchPage_recording, hf]
      exact ⟨[(req, (env.Do s req).1)], rfl, rfl⟩
  | succ k ih =>
    obtain ⟨p, s1, hf, hmore, hbuild, hrest⟩ := hfail
    cases fuel with
    | zero => simp at hfuel
    | succ fuel =>
      obtain ⟨ext, hext, hlen⟩ := ih s1 (nextPageRequest c p.NextURL) fuel
        (log ++ [(req, (env.Do s req).1)]) (all ++ p.Items) hrest (by omega)
      have hb : (recording env).httpNewRequest "GET" (.plain p.NextURL) = none := hbuild
      refine ⟨(req, (env.Do s req).1) :: ext, ?_, by simp [hlen]⟩
      unfold collectLoop
      rw [fetchPage_recording, hf]
      simp only [hmore, Bool.not_true, Bool.false_eq_true, if_false, hb, hext]
      simp

/-- C19: if the fetches of the first `k` pages succeed and the fetch of page
`k + 1` fails with the error `e` (of any kind), `CollectAllPages` returns the empty
item sequence, none of the pages already fetched, together with exactly `e`, and
sends exactly `k + 1` requests, none after the failed one. -/
theorem CollectAllPages_page_fails {T σ : Type} (env : Env T σ) (c : Client) (s sEnd : σ)
    (path : String) (params : Option (GoMap String)) (req : Request) (k : Nat) (e : GoError)
    (fuel : Nat)
    (hreq : c.newRequest env "GET" path (toURLValues params) = .ok req)
    (hfail : failsAfter env c k s req e sEnd)
    (hfuel : k + 1 ≤ fuel) :
    ∃ log, CollectAllPages (recording env) c fuel (s, []) path params =
        (some ([], some e), (sEnd, log)) ∧
      log.length = k + 1 := by
  have hnr : Client.newRequest (recording env) c "GET" path (toURLValues params) =
      .ok req := hreq
  obtain ⟨ext, hext, hlen⟩ :=
    collectLoop_failsAfter env c sEnd e k s req fuel [] ([] : List T) hfail hfuel
  refine ⟨ext, ?_, hlen⟩
  unfold CollectAllPages
  rw [hnr]
  simpa using hext

/-- C19 at a server whose first page `[1,2]` has a next link and whose second
response is 500 with body `Internal Server Error`: the result is the empty
sequence with the API error of page 2, after exactly two requests (the third
scripted response is left unused). -/
theorem CollectAllPages_page_fails_witness :
    ∃ log, CollectAllPages (recording (scriptEnv decodeNats))
        ⟨"https://api.bugsnag.com", "tok", 30⟩ 5
        ([pageResp "[1,2]" "<http://h/p2>; rel=\"next\"",
          ⟨500, [], "Internal Server Error", none⟩, pageResp "[3]" ""], []) "/test" none =
        (some ([], some (.api ⟨500, "Internal Server Error", []⟩)),
          ([pageResp "[3]" ""], log)) ∧
      log.length = 1 + 1 :=
  CollectAllPages_page_fails (scriptEnv decodeNats) ⟨"https://api.bugsnag.com", "tok", 30⟩
    [pageResp "[1,2]" "<http://h/p2>; rel=\"next\"",
      ⟨500, [], "Internal Server Error", none⟩, pageResp "[3]" ""]
    [pageResp "[3]" ""] "/test" none
    ⟨"GET", .built "https://api.bugsnag.com/test" [("per_page", ["30"])],
      [("Authorization", ["token tok"]), ("Content-Type", ["application/json"]),
        ("Accept", ["application/json"])], none⟩
    1 (.api ⟨500, "Internal Server Error", []⟩) 5 rfl
    ⟨⟨[1, 2], "http://h/p2", true⟩, _, rfl, rfl, rfl, rfl⟩
    (by decide)
/-- C20 as stated fails: when the request cannot be built, `FetchSinglePage` sends
no request at all. With the base URL `://bad`, which `url.Parse` rejects, it
returns the build error and the log of exchanges stays empty. -/
theorem FetchSinglePage_build_error_counterexample :
    FetchSinglePage (recording (scriptEnv decodeNats)) ⟨"://bad", "tok", 30⟩
        ([pageResp "[1,2]" ""], []) "/test" none =
      (([], false, some (.wrapError "invalid URL: " (.errorString "missing protocol scheme"))),
        ([pageResp "[1,2]" ""], [])) ∧
    (FetchSinglePage (recording (scriptEnv decodeNats)) ⟨"://bad", "tok", 30⟩
        ([pageResp "[1,2]" ""], []) "/test" none).2.2.length ≠ 1 :=
  ⟨rfl, by decide⟩

/-- C20, amended: `FetchSinglePage` sends exactly one request whenever the request
can be built, and none when building it fails; it does not follow the cursor. On
success it returns exactly the items of that one response, in order, with has-more
true exactly when `parseLinkHeader` of the `Link` header is non-empty; on any
failure it returns `(nil, false, err)` with `err` the error of `newRequest` or of
`fetchPage`, unchanged. -/
theorem FetchSinglePage_contract {T σ : Type} (env : Env T σ) (c : Client) (s : σ)
    (path : String) (params : Option (GoMap String)) :
    (∀ e, c.newRequest env "GET" path (toURLValues params) = .error e →
      FetchSinglePage (recording env) c (s, []) path params =
        ((([] : List T), false, some e), (s, []))) ∧
    (∀ req, c.newRequest env "GET" path (toURLValues params) = .ok req →
      (FetchSinglePage (recording env) c (s, []) path params).2 =
        ((env.Do s req).2, [(req, (env.Do s req).1)]) ∧
      (∀ resp s1 items, env.Do s req = (.ok resp, s1) → carriesPage env resp items →
        (FetchSinglePage (recording env) c (s, []) path params).1 =
          (items, parseLinkHeader (headerGet resp.Header "Link") != "", none)) ∧
      (∀ e s1, fetchPage env c s req = (.error e, s1) →
        (FetchSinglePage (recording env) c (s, []) path params).1 =
          (([] : List T), false, some e))) := by
  have hnr : Client.newRequest (recording env) c "GET" path (toURLValues params) =
      c.newRequest env "GET" path (toURLValues params) := rfl
  constructor
  · intro e he
    unfold FetchSinglePage
    rw [hnr, he]
  · intro req hreq
    have hrun : FetchSinglePage (recording env) c (s, []) path params =
        (match fetchPage env c s req with
          | (.error err, _) => (([] : List T), false, some err)
          | (.ok result, _) => (result.Items, result.HasMore, none),
         ((env.Do s req).2, [(req, (env.Do s req).1)])) := by
      unfold FetchSinglePage
      rw [hnr, hreq]
      dsimp only
      rw [fetchPage_recording, fetchPage_snd]
      rcases fetchPage env c s req with ⟨res, s1⟩
      cases res <;> rfl
    refine ⟨by rw [hrun], ?_, ?_⟩
    · intro resp s1 items hdo hpage
      rw [hrun, fetchPage_of_page env c s s1 req resp items hdo hpage]
    · intro e s1 hf
      rw [hrun, hf]

/-- C20 at a server with two items on page 1 and a next link: `FetchSinglePage`
returns these two items with has-more true after one request, leaving the second
scripted response unused. -/
theorem FetchSinglePage_contract_witness :
    FetchSinglePage (recording (scriptEnv decodeNats)) ⟨"https://api.bugsnag.com", "tok", 30⟩
        ([pageResp "[1,2]" "<http://h/p2>; rel=\"next\"", pageResp "[3]" ""], [])
        "/test" none =
      (([1, 2], true, none), ([pageResp "[3]" ""],
        [(⟨"GET", .built "https://api.bugsnag.com/test" [("per_page", ["30"])],
            [("Authorization", ["token tok"]), ("Content-Type", ["application/json"]),
              ("Accept", ["application/json"])], none⟩,
          .ok (pageResp "[1,2]" "<http://h/p2>; rel=\"next\""))])) ∧
    (FetchSinglePage (recording (scriptEnv decodeNats)) ⟨"https://api.bugsnag.com", "tok", 30⟩
        ([pageResp "[1,2]" "<http://h/p2>; rel=\"next\"", pageResp "[3]" ""], [])
        "/test" none).1 =
      ([1, 2], parseLinkHeader (headerGet
        (pageResp "[1,2]" "<http://h/p2>; rel=\"next\"").Header "Link") != "", none) :=
  ⟨rfl,
   ((FetchSinglePage_contract (scriptEnv decodeNats) ⟨"https://api.bugsnag.com", "tok", 30⟩
      [pageResp "[1,2]" "<http://h/p2>; rel=\"next\"", pageResp "[3]" ""] "/test" none).2
      ⟨"GET", .built "https://api.bugsnag.com/test" [("per_page", ["30"])],
        [("Authorization", ["token tok"]), ("Content-Type", ["application/json"]),
          ("Accept", ["application/json"])], none⟩ rfl).2.1
      (pageResp "[1,2]" "<http://h/p2>; rel=\"next\"") [pageResp "[3]" ""] [1, 2] rfl
      ⟨by decide, rfl, rfl⟩⟩

/-! ## The list wrappers -/

theorem wrapsPagination_of_shape {T σ : Type} (env : Env T σ) (c : Client) (fuel : Nat)
    (s : σ) (W : Bool → Option (List T × Bool × Option GoError) × σ) (path : String)
    (params : Option (GoMap String))
    (hall : W true =
      match CollectAllPages env c fuel s path params with
      | (some (items, err), s1) => (some (items, false, err), s1)
      | (none, s1) => (none, s1))
    (hone : W false =
      match FetchSinglePage env c s path params with
      | (r, s1) => (some r, s1)) :
    wrapsPagination env c fuel s W path params := by
  have hshape : (W true).1 =
        (CollectAllPages env c fuel s path params).1.map (fun r => (r.1, false, r.2)) ∧
      (W true).2 = (CollectAllPages env c fuel s path params).2 := by
    rw [hall]
    rcases CollectAllPages env c fuel s path params with ⟨r, s1⟩
    cases r with
    | none => exact ⟨rfl, rfl⟩
    | some r => exact ⟨rfl, rfl⟩
  refine ⟨hshape.1, hshape.2, ?_, ?_⟩
  · intro r hr
    rw [hshape.1] at hr
    cases hc : (CollectAllPages env c fuel s path params).1 with
    | none => rw [hc] at hr; cases hr
    | some r0 =>
      rw [hc] at hr
      simp only [Option.map_some', Option.some.injEq] at hr
      rw [← hr]
  · rw [hone]

/-- C21: each list wrapper, called in all-pages mode, returns has-more false in
every case and the items and the error of `CollectAllPages` for the wrapper's
path and parameters; in single-page mode it returns the triple of
`FetchSinglePage`. -/
theorem list_wrappers {T σ : Type} (env : Env T σ) (c : Client) (fuel : Nat) (s : σ)
    (orgID projectID errorID : String) (opts : ListErrorsOptions) :
    wrapsPagination env c fuel s (fun a => c.ListOrganizations env fuel s a)
      "/user/organizations" none ∧
    wrapsPagination env c fuel s (fun a => c.ListProjects env fuel s orgID a)
      ("/organizations/" ++ orgID ++ "/projects") none ∧
    wrapsPagination env c fuel s
      (fun a => c.ListErrors env fuel s { opts with AllPages := a })
      ("/projects/" ++ opts.ProjectID ++ "/errors") (some (listErrorsParams opts)) ∧
    wrapsPagination env c fuel s (fun a => c.ListEvents env fuel s projectID errorID a)
      (listEventsPath projectID errorID) none ∧
    wrapsPagination env c fuel s (fun a => c.ListCollaborators env fuel s orgID a)
      ("/organizations/" ++ orgID ++ "/collaborators") none ∧
    wrapsPagination env c fuel s (fun a => c.ListComments env fuel s projectID errorID a)
      ("/projects/" ++ projectID ++ "/errors/" ++ errorID ++ "/comments") none ∧
    wrapsPagination env c fuel s (fun a => c.ListReleases env fuel s projectID a)
      ("/projects/" ++ projectID ++ "/releases") none := by
  refine ⟨?_, ?_, ?_, ?_, ?_, ?_, ?_⟩ <;>
    exact wrapsPagination_of_shape env c fuel s _ _ _ rfl rfl

/-! ## Page size, error text, comment rows -/

/-- C22: `getPerPage` returns the configured value `v` when `1 ≤ v ≤ 100` and 30
otherwise, so its result always lies between 1 and 100. -/
theorem getPerPage_bounds (v : Int) :
    (1 ≤ v ∧ v ≤ 100 → getPerPage v = v) ∧
    ((v ≤ 0 ∨ v > 100) → getPerPage v = 30) ∧
    1 ≤ getPerPage v ∧ getPerPage v ≤ 100 := by
  unfold getPerPage
  refine ⟨?_, ?_, ?_⟩
  · intro h
    have : ¬ (v ≤ 0 ∨ v > 100) := by omega
    simp [this]
  · intro h
    simp [h]
  · dsimp only
    split_ifs with h
    · omega
    · omega

/-- C22 at the values 50, 200 and 0. -/
theorem getPerPage_bounds_witness :
    getPerPage 50 = 50 ∧ getPerPage 200 = 30 ∧ getPerPage 0 = 30 :=
  ⟨(getPerPage_bounds 50).1 (by decide), (getPerPage_bounds 200).2.1 (by decide),
   (getPerPage_bounds 0).2.1 (by decide)⟩

/-- C23: for every `APIError`, `Error()` is `API error (<status>): <message>` when
the message is non-empty and `API error (<status>)` when it is empty, the status
printed with `%d`; both texts contain "API error". -/
theorem APIError_Error_format (e : APIError) :
    (e.Message ≠ "" →
      e.Error = "API error (" ++ fmtD e.StatusCode ++ "): " ++ e.Message) ∧
    (e.Message = "" → e.Error = "API error (" ++ fmtD e.StatusCode ++ ")") ∧
    stringsContains e.Error "API error" = true := by
  refine ⟨?_, ?_, APIError.Error_contains e⟩
  · intro h; simp [APIError.Error, h]
  · intro h; simp [APIError.Error, h]

/-- C23 at status 404 with message "Not Found" and at status 500 with no message. -/
theorem APIError_Error_format_witness :
    APIError.Error ⟨404, "Not Found", []⟩ = "API error (404): Not Found" ∧
    APIError.Error ⟨500, "", []⟩ = "API error (500)" :=
  ⟨(APIError_Error_format ⟨404, "Not Found", []⟩).1 (by decide),
   (APIError_Error_format ⟨500, "", []⟩).2.1 rfl⟩
/-- C24: the message cell (index 2) of `Comment.TableRow` is the message unchanged
when its length is at most 60, and otherwise its first 57 characters followed by
"...", which is exactly 60 long and ends in "..."; the other cells are `ID`,
`AuthorName` and `CreatedAt` unchanged, and the row has as many cells as
`TableHeaders`. Lengths count the bytes of the Go string, one character each. -/
theorem Comment_TableRow_cells (c : Comment) :
    (c.Message.length ≤ 60 → c.TableRow[2]? = some c.Message) ∧
    (c.Message.length > 60 →
      c.TableRow[2]? = some (String.mk (c.Message.data.take 57) ++ "...") ∧
      (String.mk (c.Message.data.take 57) ++ "...").length = 60 ∧
      (String.mk (c.Message.data.take 57) ++ "...").data.drop 57 = "...".data) ∧
    c.TableRow[0]? = some c.ID ∧
    c.TableRow[1]? = some c.AuthorName ∧
    c.TableRow[3]? = some c.CreatedAt ∧
    c.TableRow.length = c.TableHeaders.length := by
  refine ⟨?_, ?_, rfl, rfl, rfl, rfl⟩
  · intro h
    have : ¬ c.Message.length > 60 := by omega
    simp [Comment.TableRow, this]
  · intro h
    have hlen : (c.Message.data.take 57).length = 57 := by
      rw [List.length_take]
      have : c.Message.data.length = c.Message.length := rfl
      omega
    refine ⟨by simp [Comment.TableRow, h], ?_, ?_⟩
    · have e : (String.mk (c.Message.data.take 57) ++ "...").data =
          c.Message.data.take 57 ++ "...".data := String.data_append _ _
      show (String.mk (c.Message.data.take 57) ++ "...").data.length = 60
      rw [e, List.length_append, hlen]
      rfl
    · simp only [String.data_append]
      rw [List.drop_append_of_le_length (by omega)]
      rw [List.drop_of_length_le (by omega)]
      rfl

/-- C24 at a message of 60 characters, kept, and one of 61 characters, cut to 57
characters and "...". -/
theorem Comment_TableRow_cells_witness :
    (Comment.TableRow ⟨"cm", "123456789012345678901234567890123456789012345678901234567890",
      "", "Bob", "2024-01-01"⟩)[2]? =
      some "123456789012345678901234567890123456789012345678901234567890" ∧
    (Comment.TableRow ⟨"cm", "1234567890123456789012345678901234567890123456789012345678901",
      "", "Bob", "2024-01-01"⟩)[2]? =
      some "123456789012345678901234567890123456789012345678901234567..." :=
  ⟨(Comment_TableRow_cells ⟨"cm", "123456789012345678901234567890123456789012345678901234567890",
      "", "Bob", "2024-01-01"⟩).1 (by decide),
   ((Comment_TableRow_cells ⟨"cm",
      "1234567890123456789012345678901234567890123456789012345678901",
      "", "Bob", "2024-01-01"⟩).2.1 (by decide)).1⟩
/-! ## More on the link-header parser -/

theorem FindStringSubmatch_eq_nil (re : List ReItem) (s : List Char)
    (h : ∀ a t, s = a ++ t → matchHere re [] t = none) : FindStringSubmatch re s = [] := by
  rcases FindStringSubmatch_cases re s with h1 | ⟨a, t, g, rest, e, hm, _⟩
  · exact h1
  · rw [h a t e] at hm
    cases hm

/-- C25 as stated fails: for the header `<a>; title="t"; rel="next"` the parser
returns the empty string, not the URL `a`. -/
theorem parseLinkHeader_title_first_counterexample :
    parseLinkHeader "<a>; title=\"t\"; rel=\"next\"" = "" ∧
    parseLinkHeader "<a>; title=\"t\"; rel=\"next\"" ≠ "a" := by
  decide

/-- C25, amended: `parseLinkHeader` returns the URL of a link entry only when
`rel="next"` is the first attribute after the URL: for every non-empty `u` free of
`>`, it returns the empty string for `<u>; title="t"; rel="next"` and returns `u`
for `<u>; rel="next"; title="t"`. -/
theorem parseLinkHeader_rel_first (u : String) (hne : u ≠ "") (hgt : '>' ∉ u.data) :
    parseLinkHeader ("<" ++ u ++ ">; title=\"t\"; rel=\"next\"") = "" ∧
    parseLinkHeader ("<" ++ u ++ ">; rel=\"next\"; title=\"t\"") = u := by
  constructor
  · apply parseLinkHeader_of_find_nil
    apply FindStringSubmatch_eq_nil
    intro a t hsplit
    rw [matchHere_linkNextRe]
    have hW : ∀ c ∈ ">; title=\"t\"; rel=\"next\"".data, c ≠ '<' := by decide
    have hdata : ("<" ++ u ++ ">; title=\"t\"; rel=\"next\"").data =
        ('<' :: u.data) ++ ">; title=\"t\"; rel=\"next\"".data := by
      simp only [String.data_append]
      rfl
    rw [hdata] at hsplit
    have hsuffixW : ∀ a2 b2 : List Char,
        ">; title=\"t\"; rel=\"next\"".data = a2 ++ b2 → linkMatch b2 = none := by
      intro a2 b2 h2
      cases b2 with
      | nil => rfl
      | cons c b3 =>
        apply linkMatch_head_ne
        apply hW
        rw [h2]
        simp
    rcases List.append_eq_append_iff.1 hsplit with ⟨a', _, hW2⟩ | ⟨c', hc', hb2⟩
    · exact hsuffixW a' t hW2
    · cases c' with
      | nil =>
        rw [List.nil_append] at hb2
        exact hsuffixW [] t (by rw [hb2]; rfl)
      | cons c v =>
        have hv : ∀ d ∈ v, d ≠ '>' := by
          intro d hd h
          subst h
          have hmem : '>' ∈ '<' :: u.data := by
            rw [hc']
            exact List.mem_append_right _ (List.mem_cons_of_mem _ hd)
          rcases List.mem_cons.1 hmem with h3 | h3
          · exact absurd h3 (by decide)
          · exact hgt h3
        rw [hb2]
        by_cases hc : c = '<'
        · cases v with
          | nil => simp [linkMatch]
          | cons d v1 =>
            have hd : d ≠ '>' := hv d (List.mem_cons_self _ _)
            have htw := takeWhile_append_stop (CharClass.notChr '>').test v1
              "; title=\"t\"; rel=\"next\"".data '>'
              (fun x hx => by
                simpa [CharClass.test] using hv x (List.mem_cons_of_mem _ hx))
              (by decide)
            have e1 : (c :: d :: v1) ++ ">; title=\"t\"; rel=\"next\"".data =
                c :: d :: (v1 ++ '>' :: "; title=\"t\"; rel=\"next\"".data) := rfl
            rw [e1]
            simp only [linkMatch, hc, hd, ne_eq, not_false_eq_true, and_self, if_true,
              htw.1, htw.2]
            rfl
        · exact linkMatch_head_ne _ _ hc
  · have hdata : ("<" ++ u ++ ">; rel=\"next\"; title=\"t\"").data =
        [] ++ ('<' :: u.data ++ '>' :: ';' :: [' '] ++ relNext ++ "; title=\"t\"".data) := by
      simp only [String.data_append, List.nil_append, List.append_assoc, List.cons_append]
      rfl
    have hm : linkMatch ('<' :: u.data ++ '>' :: ';' :: [' '] ++ relNext ++
        "; title=\"t\"".data) = some (u.data, "; title=\"t\"".data) := by
      rw [linkMatch_eq_some_iff]
      exact ⟨[' '], rfl, data_ne_nil_of_ne_empty u hne, fun c hc h => hgt (h ▸ hc), by decide⟩
    have hfind := FindStringSubmatch_of_match linkNextRe [] _ u.data "; title=\"t\"".data
      (fun a1 b h hb => by
        have hb2 : b = [] := (List.append_eq_nil.1 h.symm).2
        exact absurd hb2 hb)
      (by rw [matchHere_linkNextRe]; exact hm)
    rw [← hdata] at hfind
    rw [parseLinkHeader_of_find _ _ _ hfind]

/-- C25 at the URL `https://a/p?offset=2`. -/
theorem parseLinkHeader_rel_first_witness :
    parseLinkHeader ("<" ++ "https://a/p?offset=2" ++ ">; title=\"t\"; rel=\"next\"") = "" ∧
    parseLinkHeader ("<" ++ "https://a/p?offset=2" ++ ">; rel=\"next\"; title=\"t\"")
      = "https://a/p?offset=2" :=
  parseLinkHeader_rel_first "https://a/p?offset=2" (by decide) (by decide)

/-- C29: if `parseLinkHeader` returns a non-empty `u` for a header, then `u` holds
no `>` and the header contains `<`, `u`, `>;`, a run of white space (possibly
empty) and `rel="next"`, in this order and without gaps. -/
theorem parseLinkHeader_bracketed (header u : String)
    (h : parseLinkHeader header = u) (hne : u ≠ "") :
    '>' ∉ u.data ∧
    ∃ a ws rest, header.data = a ++ ('<' :: u.data ++ '>' :: ';' :: ws ++ relNext ++ rest) ∧
      ∀ c ∈ ws, CharClass.space.test c = true := by
  rcases FindStringSubmatch_cases linkNextRe header.data with h1 | ⟨a, t, g, rest, e, hm, hf⟩
  · rw [parseLinkHeader_of_find_nil header h1] at h
    exact absurd h.symm hne
  · rw [parseLinkHeader_of_find header _ _ hf] at h
    rw [matchHere_linkNextRe, linkMatch_eq_some_iff] at hm
    obtain ⟨ws, ht, _, hgt, hws⟩ := hm
    have hg : g = u.data := by rw [← h]
    subst hg
    exact ⟨fun hmem => hgt _ hmem rfl, a, ws, rest, by rw [e, ht], hws⟩

/-- C29 at the header `<http://h/p2>;  rel="next", <http://h/p9>; rel="last"`. -/
theorem parseLinkHeader_bracketed_witness :
    '>' ∉ "http://h/p2".data ∧
    ∃ a ws rest, "<http://h/p2>;  rel=\"next\", <http://h/p9>; rel=\"last\"".data =
        a ++ ('<' :: "http://h/p2".data ++ '>' :: ';' :: ws ++ relNext ++ rest) ∧
      ∀ c ∈ ws, CharClass.space.test c = true :=
  parseLinkHeader_bracketed "<http://h/p2>;  rel=\"next\", <http://h/p9>; rel=\"last\""
    "http://h/p2" (by decide) (by decide)
/-! ## More on error responses and single pages -/

/-- C26: for a response with status at least 400 whose body parses with a
non-empty errors list whose first entry has no `message` key, both `do` and
`fetchPage` return a `*APIError` with an empty `Message` (the raw body is not
used) and the full errors list, whose `Error()` text is `API error (<status>)`. -/
theorem apiError_no_message {T σ α : Type} (env : Env T σ) (c : Client) (s s1 : σ)
    (req : Request) (v : Option (String → Except GoError α)) (resp : Response)
    (first : GoMap String) (more : List (GoMap String))
    (hdo : env.Do s req = (.ok resp, s1)) (hst : resp.StatusCode ≥ 400)
    (hparse : env.unmarshalErrors resp.Body = some (first :: more))
    (hmsg : mapGet first "message" = none) :
    fetchPage env c s req =
      (.error (.api { StatusCode := resp.StatusCode, Message := "",
                      Errors := first :: more }), s1) ∧
    c.do_ env s req v =
      ((some resp, none, some (.api { StatusCode := resp.StatusCode, Message := "",
                                      Errors := first :: more })), s1) ∧
    APIError.Error { StatusCode := resp.StatusCode, Message := "", Errors := first :: more } =
      "API error (" ++ fmtD resp.StatusCode ++ ")" := by
  rw [fetchPage_error_status env c s s1 req resp hdo hst,
    do_error_status env c s s1 req v resp hdo hst, hparse]
  simp [hmsg, APIError.Error]

/-- C26 at the response 422 whose errors list is `[{"code":"E42"}]`. -/
theorem apiError_no_message_witness :
    fetchPage codeOnlyEnv ⟨"https://api.bugsnag.com", "tok", 30⟩
      [⟨422, [], "\x7b\"errors\":[\x7b\"code\":\"E42\"\x7d]\x7d", none⟩]
      (nextPageRequest ⟨"https://api.bugsnag.com", "tok", 30⟩ "http://h/test") =
      (.error (.api { StatusCode := 422, Message := "",
                      Errors := [[("code", "E42")]] }), []) ∧
    Client.do_ codeOnlyEnv ⟨"https://api.bugsnag.com", "tok", 30⟩
      [⟨422, [], "\x7b\"errors\":[\x7b\"code\":\"E42\"\x7d]\x7d", none⟩]
      (nextPageRequest ⟨"https://api.bugsnag.com", "tok", 30⟩ "http://h/test")
      (none : Option (String → Except GoError Nat)) =
      ((some ⟨422, [], "\x7b\"errors\":[\x7b\"code\":\"E42\"\x7d]\x7d", none⟩, none,
        some (.api { StatusCode := 422, Message := "",
                     Errors := [[("code", "E42")]] })), []) ∧
    APIError.Error { StatusCode := 422, Message := "", Errors := [[("code", "E42")]] } =
      "API error (422)" :=
  apiError_no_message codeOnlyEnv ⟨"https://api.bugsnag.com", "tok", 30⟩
    [⟨422, [], "\x7b\"errors\":[\x7b\"code\":\"E42\"\x7d]\x7d", none⟩] []
    (nextPageRequest ⟨"https://api.bugsnag.com", "tok", 30⟩ "http://h/test") none
    ⟨422, [], "\x7b\"errors\":[\x7b\"code\":\"E42\"\x7d]\x7d", none⟩
    [("code", "E42")] [] rfl (by decide) rfl (by decide)

/-- C27: for every response with status at least 400, the `*APIError` returned by
`do` and the one returned by `fetchPage` are the same: same `StatusCode`, same
`Message`, same `Errors`. -/
theorem apiError_do_eq_fetchPage {T σ α : Type} (env : Env T σ) (c : Client) (s s1 : σ)
    (req : Request) (v : Option (String → Except GoError α)) (resp : Response)
    (hdo : env.Do s req = (.ok resp, s1)) (hst : resp.StatusCode ≥ 400) :
    ∃ e : APIError, e.StatusCode = resp.StatusCode ∧
      fetchPage env c s req = (.error (.api e), s1) ∧
      c.do_ env s req v = ((some resp, none, some (.api e)), s1) := by
  refine ⟨_, ?_, fetchPage_error_status env c s s1 req resp hdo hst,
    do_error_status env c s s1 req v resp hdo hst⟩
  split <;> rfl

/-- C27 at the response 403 with body `{"errors":[{"message":"Forbidden"}]}`. -/
theorem apiError_do_eq_fetchPage_witness :
    ∃ e : APIError, e.StatusCode = 403 ∧
      fetchPage (scriptEnv decodeNats) ⟨"https://api.bugsnag.com", "tok", 30⟩
        [⟨403, [], "\x7b\"errors\":[\x7b\"message\":\"Forbidden\"\x7d]\x7d", none⟩]
        (nextPageRequest ⟨"https://api.bugsnag.com", "tok", 30⟩ "http://h/test") =
        (.error (.api e), []) ∧
      Client.do_ (scriptEnv decodeNats) ⟨"https://api.bugsnag.com", "tok", 30⟩
        [⟨403, [], "\x7b\"errors\":[\x7b\"message\":\"Forbidden\"\x7d]\x7d", none⟩]
        (nextPageRequest ⟨"https://api.bugsnag.com", "tok", 30⟩ "http://h/test")
        (none : Option (String → Except GoError Nat)) =
        ((some ⟨403, [], "\x7b\"errors\":[\x7b\"message\":\"Forbidden\"\x7d]\x7d", none⟩,
          none, some (.api e)), []) :=
  apiError_do_eq_fetchPage (scriptEnv decodeNats) ⟨"https://api.bugsnag.com", "tok", 30⟩
    [⟨403, [], "\x7b\"errors\":[\x7b\"message\":\"Forbidden\"\x7d]\x7d", none⟩] []
    (nextPageRequest ⟨"https://api.bugsnag.com", "tok", 30⟩ "http://h/test") none
    ⟨403, [], "\x7b\"errors\":[\x7b\"message\":\"Forbidden\"\x7d]\x7d", none⟩ rfl (by decide)

theorem FetchSinglePage_recording {T σ : Type} (env : Env T σ) (c : Client) (s : σ)
    (path : String) (params : Option (GoMap String)) (req : Request)
    (hreq : c.newRequest env "GET" path (toURLValues params) = .ok req) :
    FetchSinglePage (recording env) c (s, []) path params =
      (match fetchPage env c s req with
        | (.error err, _) => (([] : List T), false, some err)
        | (.ok result, _) => (result.Items, result.HasMore, none),
       ((env.Do s req).2, [(req, (env.Do s req).1)])) := by
  have hnr : Client.newRequest (recording env) c "GET" path (toURLValues params) =
      .ok req := hreq
  unfold FetchSinglePage
  rw [hnr]
  dsimp only
  rw [fetchPage_recording, fetchPage_snd]
  rcases fetchPage env c s req with ⟨res, s1⟩
  cases res <;> rfl

/-- C28: for every server whose first response succeeds and carries no next link,
`CollectAllPages` and `FetchSinglePage`, called with the same client, path and
parameters, send the same single request and return the same items, and the
has-more flag of `FetchSinglePage` is false. -/
theorem CollectAllPages_eq_FetchSinglePage {T σ : Type} (env : Env T σ) (c : Client)
    (s s1 : σ) (path : String) (params : Option (GoMap String)) (req : Request)
    (resp : Response) (P : List T) (fuel : Nat)
    (hreq : c.newRequest env "GET" path (toURLValues params) = .ok req)
    (hdo : env.Do s req = (.ok resp, s1))
    (hpage : carriesPage env resp P)
    (hnone : parseLinkHeader (headerGet resp.Header "Link") = "")
    (hfuel : 1 ≤ fuel) :
    CollectAllPages (recording env) c fuel (s, []) path params =
      (some (P, none), (s1, [(req, .ok resp)])) ∧
    FetchSinglePage (recording env) c (s, []) path params =
      ((P, false, none), (s1, [(req, .ok resp)])) := by
  have hf := fetchPage_of_page env c s s1 req resp P hdo hpage
  constructor
  · have hnr : Client.newRequest (recording env) c "GET" path (toURLValues params) =
        .ok req := hreq
    cases fuel with
    | zero => simp at hfuel
    | succ fuel =>
      unfold CollectAllPages
      rw [hnr]
      dsimp only
      unfold collectLoop
      rw [fetchPage_recording, hf, hdo]
      simp [hnone]
  · rw [FetchSinglePage_recording env c s path params req hreq, hf, hdo]
    simp [hnone]

/-- C28 at a server whose only page is `[1,2]` without a `Link` header. -/
theorem CollectAllPages_eq_FetchSinglePage_witness :
    CollectAllPages (recording (scriptEnv decodeNats)) ⟨"https://api.bugsnag.com", "tok", 30⟩
        4 ([pageResp "[1,2]" ""], []) "/test" none =
      (some ([1, 2], none), ([],
        [(⟨"GET", .built "https://api.bugsnag.com/test" [("per_page", ["30"])],
            [("Authorization", ["token tok"]), ("Content-Type", ["application/json"]),
              ("Accept", ["application/json"])], none⟩, .ok (pageResp "[1,2]" ""))])) ∧
    FetchSinglePage (recording (scriptEnv decodeNats)) ⟨"https://api.bugsnag.com", "tok", 30⟩
        ([pageResp "[1,2]" ""], []) "/test" none =
      (([1, 2], false, none), ([],
        [(⟨"GET", .built "https://api.bugsnag.com/test" [("per_page", ["30"])],
            [("Authorization", ["token tok"]), ("Content-Type", ["application/json"]),
              ("Accept", ["application/json"])], none⟩, .ok (pageResp "[1,2]" ""))])) :=
  CollectAllPages_eq_FetchSinglePage (scriptEnv decodeNats)
    ⟨"https://api.bugsnag.com", "tok", 30⟩ [pageResp "[1,2]" ""] [] "/test" none
    ⟨"GET", .built "https://api.bugsnag.com/test" [("per_page", ["30"])],
      [("Authorization", ["token tok"]), ("Content-Type", ["application/json"]),
        ("Accept", ["application/json"])], none⟩
    (pageResp "[1,2]" "") [1, 2] 4 rfl rfl ⟨by decide, rfl, rfl⟩ (by decide) (by decide)
/-! ## The printer -/

/-- C30: a `Printer` writes an error as the JSON object `{"error": msg}` exactly
when its `Format` is "json" and as the line `Error: <msg>` for every other
`Format`; it hands results to the table printer only when `Format` is "table" and
writes them as JSON for every other `Format`. So for a `Format` other than "json"
and "table" results are JSON while errors are plain text. -/
theorem Printer_format_dispatch {J : Type} (jsonMarshal : GoMap String → String)
    (p : Printer) (msg : String) (data : PrintData J) (totalCount : Int) (hasMore : Bool) :
    (p.Format = "json" →
      p.FormatError jsonMarshal msg = jsonMarshal [("error", msg)] ++ "\n") ∧
    (p.Format ≠ "json" → p.FormatError jsonMarshal msg = "Error: " ++ msg ++ "\n") ∧
    (p.Format = "table" →
      p.PrintList data totalCount hasMore = p.printTable data ∧
      p.PrintSingle data = p.printTable data) ∧
    (p.Format ≠ "table" →
      p.PrintList data totalCount hasMore =
        .jsonList { Data := data, TotalCount := totalCount, HasMore := hasMore } ∧
      p.PrintSingle data = .jsonData data) ∧
    (p.Format ≠ "json" → p.Format ≠ "table" →
      p.PrintList data totalCount hasMore =
        .jsonList { Data := data, TotalCount := totalCount, HasMore := hasMore } ∧
      p.PrintSingle data = .jsonData data ∧
      p.FormatError jsonMarshal msg = "Error: " ++ msg ++ "\n") := by
  refine ⟨?_, ?_, ?_, ?_, ?_⟩
  · intro h; simp [Printer.FormatError, h]
  · intro h; simp [Printer.FormatError, h]
  · intro h; simp [Printer.PrintList, Printer.PrintSingle, h]
  · intro h; simp [Printer.PrintList, Printer.PrintSingle, h]
  · intro h1 h2; simp [Printer.PrintList, Printer.PrintSingle, Printer.FormatError, h1, h2]

/-- C30 at the formats "json", "table" and the empty format. -/
theorem Printer_format_dispatch_witness :
    Printer.FormatError marshalError ⟨"json"⟩ "something went wrong" =
      "\x7b\"error\":\"something went wrong\"\x7d\n" ∧
    Printer.FormatError marshalError ⟨"table"⟩ "bad config" = "Error: bad config\n" ∧
    ((Printer.PrintList ⟨""⟩ (.renderers [⟨["ID"], ["o1"]⟩]) 1 false : Written Nat) =
        .jsonList { Data := .renderers [⟨["ID"], ["o1"]⟩], TotalCount := 1, HasMore := false } ∧
      (Printer.PrintSingle ⟨""⟩ (.renderers [⟨["ID"], ["o1"]⟩]) : Written Nat) =
        .jsonData (.renderers [⟨["ID"], ["o1"]⟩]) ∧
      Printer.FormatError marshalError ⟨""⟩ "bad config" = "Error: bad config\n") ∧
    (Printer.PrintList ⟨"table"⟩ (.renderers [⟨["ID"], ["o1"]⟩]) 1 false : Written Nat) =
      .table [["ID"], ["o1"]] :=
  ⟨(Printer_format_dispatch (J := Nat) marshalError ⟨"json"⟩ "something went wrong"
      (.renderers []) 0 false).1 rfl,
   (Printer_format_dispatch (J := Nat) marshalError ⟨"table"⟩ "bad config"
      (.renderers []) 0 false).2.1 (by decide),
   (Printer_format_dispatch (J := Nat) marshalError ⟨""⟩ "bad config"
      (.renderers [⟨["ID"], ["o1"]⟩]) 1 false).2.2.2.2 (by decide) (by decide),
   ((Printer_format_dispatch (J := Nat) marshalError ⟨"table"⟩ "bad config"
      (.renderers [⟨["ID"], ["o1"]⟩]) 1 false).2.2.1 rfl).1⟩

end BugsnagCli
